import Mathlib

/-!
# voctreeQueryUtility: report and symlink-tree materialisation

A shallow embedding of `src/software/Localization/voctreeQueryUtility.cpp`.

* Text (strings, paths, stream contents) is a list of characters; a stream is
  the text written to it so far and `os << x` appends the rendering of `x`.
* The vocabulary tree, the database, the descriptor loader, the scene
  description loader, `boost::filesystem` and the formatting of a `float`
  are external to the file: they are the fields of `Env`.
* Every call that `main` makes to one of these collaborators is recorded, in
  order, in a list of `Event`s.
* `create_directories` and `create_symlink` are the throwing overloads and
  `main` catches nothing: whether a call throws is `Env.fsThrows`, a function of
  the calls made so far, and a call that throws ends the run with `ABORTED`.
  The other collaborators (`exists`, the loaders, the database) are taken to
  answer without throwing.
* `main` starts after the command line has been parsed (`Config`); the
  diagnostic output on `cout`/`cerr` is not part of the model, except for the
  final tally of wrong matches.
* The report file is taken to open: `Outcome.report` is the text written to
  the stream `fileout`; for a run that is aborted this is what the stream was
  given, of which the file may hold less, the stream not being closed.
* Ids, indices and counts are natural numbers: an index `i` stays below the
  size of a vector, so `i + 1` does not wrap.
* Reading `matches[0]` on an empty vector is undefined behaviour; the model
  returns `Flow.undef` (and `main` returns `none`) there.
-/

namespace VoctreeQuery

/-- Text: the characters of a `std::string`, of a path, or written to a stream. -/
abbrev Str := List Char

/-- Decimal rendering of an unsigned integer, as done by `operator<<`. -/
def showNat (n : Nat) : Str := Nat.toDigits 10 n

/-- One scored retrieval result, `openMVG::voctree::Match`. -/
structure Match (σ : Type) where
  id : Nat
  score : σ
  deriving DecidableEq

/-- Ranked results of one query, `openMVG::voctree::Matches`. -/
abbrev Matches (σ : Type) := List (Match σ)

/-- The view of a scene description: only the image path is used. -/
structure View where
  s_Img_path : Str
  deriving DecidableEq

/-- Scene description, `openMVG::sfm::SfM_Data`: the views by id and the root path. -/
structure SfM_Data where
  views : List (Nat × View)
  s_root_path : Str
  deriving DecidableEq

/-- Lookup of a view by id, `GetViews().find(k)`; `none` stands for `end()`. -/
def SfM_Data.find (d : SfM_Data) (k : Nat) : Option View := d.views.lookup k

/-- The calls made to the external collaborators. -/
inductive Event where
  | loadTree (file : Str)
  | loadWeights (file : Str)
  | populateDatabase (file : Str)
  | saveDocumentMap (file : Str)
  | computeTfIdfWeights
  | openReport (file : Str)
  | sanityCheck (k : Nat)
  | queryDatabase (file : Str) (k : Nat)
  | sfmLoad (file : Str)
  | createDirectories (dir : Str)
  | createSymlink (target link : Str)
  deriving DecidableEq

/-- The external collaborators of `main`. -/
structure Env (σ : Type) where
  /-- rendering of a score by `operator<<` -/
  showScore : σ → Str
  /-- `boostfs::path(p).extension().string()` -/
  extension : Str → Str
  /-- `boostfs::path(p).filename()` -/
  filename : Str → Str
  /-- `operator/` on paths -/
  join : Str → Str → Str
  /-- `boostfs::exists` -/
  pathExists : Str → Bool
  /-- number of features returned by `populateDatabase` for a list file -/
  populateDatabase : Str → Nat
  /-- `db.size()` once the database is populated -/
  dbSize : Nat
  /-- result of `db.sanityCheck(k, allMatches)` -/
  sanityCheck : Nat → List (Matches σ)
  /-- result of `queryDatabase(queryList, tree, db, k, allMatches)` -/
  queryDatabase : Str → Nat → List (Matches σ)
  /-- `openMVG::sfm::Load`; `none` when it returns false -/
  sfmLoad : Str → Option SfM_Data
  /-- whether a call to `create_directories` or `create_symlink` throws, given the calls made
  so far -/
  fsThrows : List Event → Event → Bool

/-- The parsed command line. -/
structure Config where
  weightsName : Option Str
  treeName : Str
  keylist : Str
  queryList : Option Str
  documentMapFile : Option Str
  outDir : Option Str
  numImageQuery : Nat
  matlabOutput : Bool
  outfile : Option Str

/-- The mutable state of the result loop. -/
structure State where
  events : List Event
  fileout : Str
  wrong : Nat
  deriving DecidableEq

/-- Control flow of a loop body: go on, `return code`, an exception that nothing catches, or
undefined behaviour. -/
inductive Flow (α : Type) where
  | next (s : α)
  | ret (code : Nat) (s : α)
  | abort (s : α)
  | undef
  deriving DecidableEq

/-- Exit status of a successful run. -/
def EXIT_SUCCESS : Nat := 0

/-- Exit status of a failed run. -/
def EXIT_FAILURE : Nat := 1

/-- Status of a run ended by an exception that nothing catches: `std::terminate` calls
`abort`, and the process is reported with 128 + 6 (SIGABRT). -/
def ABORTED : Nat := 134

/-- The flags set at lines 153-173. -/
structure Flags where
  withWeights : Bool
  withOutput : Bool
  withQuery : Bool
  withOutDir : Bool
  deriving DecidableEq

/-- Lines 165-173: the decision to honour `--outdir`. -/
def withOutDirFlag {σ : Type} (env : Env σ) (cfg : Config) : Bool :=
  match cfg.outDir with
  | none => false
  | some _ =>
    let withOutDir := env.extension cfg.keylist == ".json".toList
    if withOutDir && cfg.queryList.isSome then
      withOutDir && (env.extension (cfg.queryList.getD []) == ".json".toList)
    else withOutDir

/-- Lines 153-173. -/
def flagsOf {σ : Type} (env : Env σ) (cfg : Config) : Flags where
  withWeights := cfg.weightsName.isSome
  withOutput := cfg.outfile.isSome
  withQuery := cfg.queryList.isSome
  withOutDir := withOutDirFlag env cfg

/-- Lines 33-42: `operator<<(std::ostream&, const Matches&)`. -/
def putMatches {σ : Type} (showScore : σ → Str) (os : Str) (ms : Matches σ) : Str :=
  let os := os ++ "[ ".toList
  let os := ms.foldl
    (fun os e => os ++ showNat e.id ++ ", ".toList ++ showScore e.score ++ "; ".toList) os
  os ++ "];\n".toList

/-- Lines 55-60: `setw(zeroPadding)` with fill character `0`, then the number. -/
def myToString (i zeroPadding : Nat) : Str :=
  List.leftpad zeroPadding '0' (showNat i)

/-- A call to `create_directories` or `create_symlink` (lines 308, 354, 355, 386): the call
is logged; these are the throwing overloads and `main` has no handler, so when the call throws
the run is aborted. -/
def request {σ : Type} (env : Env σ) (e : Event) (st : State) : Flow State :=
  if env.fsThrows st.events e then Flow.abort { st with events := st.events ++ [e] }
  else Flow.next { st with events := st.events ++ [e] }

/-- Lines 358-388: the loop over the matches of query `i`, from rank `j` on. -/
def matchLoop {σ : Type} (env : Env σ) (cfg : Config) (fl : Flags) (sfmdata : SfM_Data)
    (dirname : Str) (i : Nat) : Nat → Matches σ → State → Flow State
  | _, [], st => .next st
  | j, m :: rest, st =>
    let st :=
      if fl.withOutput && !cfg.matlabOutput then
        { st with fileout := st.fileout ++ showNat i ++ " ".toList ++ showNat m.id ++
            " ".toList ++ env.showScore m.score ++ "\n".toList }
      else st
    if fl.withOutDir then
      match sfmdata.find m.id with
      | some v =>
        let sylinkName := myToString j 4 ++ ".".toList ++ env.filename v.s_Img_path
        let absoluteFilename := env.join sfmdata.s_root_path v.s_Img_path
        match request env
            (Event.createSymlink absoluteFilename (env.join dirname sylinkName)) st with
        | .next st => matchLoop env cfg fl sfmdata dirname i (j + 1) rest st
        | r => r
      | none => .ret EXIT_FAILURE st
    else matchLoop env cfg fl sfmdata dirname i (j + 1) rest st

/-- Lines 390-398: the tally of wrong matches after the matches of query `i`. -/
def tallyWrong (fl : Flags) (i bestId : Nat) (st : State) : State :=
  if !fl.withQuery then
    if i ≠ bestId then { st with wrong := st.wrong + 1 } else st
  else st

/-- Lines 315-398: the body of the loop over the queries. -/
def queryBody {σ : Type} (env : Env σ) (cfg : Config) (fl : Flags)
    (sfmdata sfmdataQuery : SfM_Data) (i : Nat) (ms : Matches σ) (st : State) : Flow State :=
  match ms.head? with
  | none => .undef
  | some best =>
    let st :=
      if fl.withOutput then
        if !cfg.matlabOutput then
          { st with fileout := st.fileout ++ "Camera: ".toList ++ showNat i ++ "\n".toList }
        else
          { st with fileout := (putMatches env.showScore
              (st.fileout ++ "m\x7b".toList ++ showNat (i + 1) ++ "\x7d=".toList) ms) }
      else st
    if fl.withOutDir then
      match sfmdataQuery.find i with
      | some v =>
        let sylinkName := env.filename v.s_Img_path
        let dirname := env.join (cfg.outDir.getD []) sylinkName
        let absoluteFilename := env.join sfmdataQuery.s_root_path sylinkName
        match request env (Event.createDirectories dirname) st with
        | .next st =>
          match request env
              (Event.createSymlink absoluteFilename (env.join dirname sylinkName)) st with
          | .next st =>
            match matchLoop env cfg fl sfmdata dirname i 0 ms st with
            | .next st => .next (tallyWrong fl i best.id st)
            | r => r
          | r => r
        | r => r
      | none => .ret EXIT_FAILURE st
    else
      match matchLoop env cfg fl sfmdata [] i 0 ms st with
      | .next st => .next (tallyWrong fl i best.id st)
      | r => r

/-- Lines 313-399: the loop over `allMatches`, from query index `i` on. -/
def queryLoop {σ : Type} (env : Env σ) (cfg : Config) (fl : Flags)
    (sfmdata sfmdataQuery : SfM_Data) : Nat → List (Matches σ) → State → Flow State
  | _, [], st => .next st
  | i, ms :: rest, st =>
    match queryBody env cfg fl sfmdata sfmdataQuery i ms st with
    | .next st => queryLoop env cfg fl sfmdata sfmdataQuery (i + 1) rest st
    | r => r

/-- Lines 400-406: the tally line printed in sanity-check mode. -/
def tallyMessage (fl : Flags) (wrong : Nat) : Option Str :=
  if !fl.withQuery then
    if wrong ≠ 0 then some ("there are ".toList ++ showNat wrong ++ " wrong matches".toList)
    else some "no wrong matches!".toList
  else none

/-- What a run leaves behind. -/
structure Outcome (σ : Type) where
  exitCode : Nat
  events : List Event
  /-- text written to the report file, when one was opened -/
  report : Option Str
  allMatches : List (Matches σ)
  wrong : Nat
  /-- the tally line, when one was printed -/
  tally : Option Str
  deriving DecidableEq

/-- Lines 245-249: a requested count of 0 stands for all the documents of the database. -/
def resolveCount {σ : Type} (env : Env σ) (cfg : Config) : Nat :=
  if cfg.numImageQuery = 0 then env.dbSize else cfg.numImageQuery

/-- Lines 176-254: tree, weights, database, document map, count resolution and report file.
Returns the events so far and the resolved count, or `none` when no descriptor was loaded. -/
def buildPhase {σ : Type} (env : Env σ) (cfg : Config) (fl : Flags) :
    List Event × Option Nat :=
  let ev := [Event.loadTree cfg.treeName]
  let ev := match cfg.weightsName with
    | some w => ev ++ [Event.loadWeights w]
    | none => ev
  let ev := ev ++ [Event.populateDatabase cfg.keylist]
  let numTotFeatures := env.populateDatabase cfg.keylist
  if numTotFeatures = 0 then (ev, none)
  else
    let ev := match cfg.documentMapFile with
      | some f => ev ++ [Event.saveDocumentMap f]
      | none => ev
    let ev := if !fl.withWeights then ev ++ [Event.computeTfIdfWeights] else ev
    let numImageQuery := resolveCount env cfg
    let ev := match cfg.outfile with
      | some f => ev ++ [Event.openReport f]
      | none => ev
    (ev, some numImageQuery)

/-- Lines 256-268: sanity check or external query. -/
def queryPhase {σ : Type} (env : Env σ) (cfg : Config) (numImageQuery : Nat) :
    Event × List (Matches σ) :=
  match cfg.queryList with
  | none => (Event.sanityCheck numImageQuery, env.sanityCheck numImageQuery)
  | some q => (Event.queryDatabase q numImageQuery, env.queryDatabase q numImageQuery)

/-- How lines 270-311 end: both scene descriptions are there, a load failed
(`return EXIT_FAILURE`), or the creation of the output directory threw. -/
inductive Scene where
  | ready (sfmdata sfmdataQuery : SfM_Data)
  | failed
  | aborted
  deriving DecidableEq

/-- Lines 270-311: loading of the scene descriptions and creation of the output directory,
after the events `ev`. Returns the events so far and how the phase ends. -/
def scenePhase {σ : Type} (env : Env σ) (cfg : Config) (fl : Flags) (ev : List Event) :
    List Event × Scene :=
  if fl.withOutDir then
    let ev := ev ++ [Event.sfmLoad cfg.keylist]
    match env.sfmLoad cfg.keylist with
    | none => (ev, Scene.failed)
    | some sfmdata =>
      let loaded : List Event × Option SfM_Data :=
        match cfg.queryList with
        | some q => (ev ++ [Event.sfmLoad q], env.sfmLoad q)
        | none => (ev, some sfmdata)
      match loaded.2 with
      | none => (loaded.1, Scene.failed)
      | some sfmdataQuery =>
        let outDir := cfg.outDir.getD []
        if !env.pathExists outDir then
          if env.fsThrows loaded.1 (Event.createDirectories outDir) then
            (loaded.1 ++ [Event.createDirectories outDir], Scene.aborted)
          else (loaded.1 ++ [Event.createDirectories outDir], Scene.ready sfmdata sfmdataQuery)
        else (loaded.1, Scene.ready sfmdata sfmdataQuery)
  else (ev, Scene.ready ⟨[], []⟩ ⟨[], []⟩)

/-- Lines 153-413 of `main`; `none` is undefined behaviour. -/
def main {σ : Type} (env : Env σ) (cfg : Config) : Option (Outcome σ) :=
  let fl := flagsOf env cfg
  match buildPhase env cfg fl with
  | (ev, none) => some ⟨EXIT_FAILURE, ev, none, [], 0, none⟩
  | (ev, some numImageQuery) =>
    let q := queryPhase env cfg numImageQuery
    let ev := ev ++ [q.1]
    let allMatches := q.2
    let report := fun (s : Str) => if fl.withOutput then some s else none
    match scenePhase env cfg fl ev with
    | (ev, Scene.failed) => some ⟨EXIT_FAILURE, ev, report [], allMatches, 0, none⟩
    | (ev, Scene.aborted) => some ⟨ABORTED, ev, report [], allMatches, 0, none⟩
    | (ev, Scene.ready sfmdata sfmdataQuery) =>
      match queryLoop env cfg fl sfmdata sfmdataQuery 0 allMatches ⟨ev, [], 0⟩ with
      | .undef => none
      | .ret code st => some ⟨code, st.events, report st.fileout, allMatches, st.wrong, none⟩
      | .abort st => some ⟨ABORTED, st.events, report st.fileout, allMatches, st.wrong, none⟩
      | .next st =>
        some ⟨EXIT_SUCCESS, st.events, report st.fileout, allMatches, st.wrong,
          tallyMessage fl st.wrong⟩

/-- The query batch of a run: what the sanity check or the external query returns for the
resolved count. -/
def batchOf {σ : Type} (env : Env σ) (cfg : Config) : List (Matches σ) :=
  (queryPhase env cfg (resolveCount env cfg)).2

/-! ## Reference renderings

The two report formats as the specification words them, line by line. -/

/-- Lines of text, each followed by the end-of-line character. -/
def unlines (ls : List Str) : Str := ls.flatMap (fun l => l ++ ['\n'])

/-- The plain line of a match: query index, matched id and score, separated by blanks. -/
def plainLine {σ : Type} (showScore : σ → Str) (i : Nat) (m : Match σ) : Str :=
  showNat i ++ [' '] ++ showNat m.id ++ [' '] ++ showScore m.score

/-- The header line that precedes the matches of query `i` in the plain report. -/
def cameraLine (i : Nat) : Str := "Camera: ".toList ++ showNat i

/-- Plain report made of match lines only: one line per match, queries ascending, matches
in rank order. -/
def plainMatchLines {σ : Type} (showScore : σ → Str) (batch : List (Matches σ)) : List Str :=
  batch.enum.flatMap (fun p => p.2.map (plainLine showScore p.1))

/-- Plain report with, for each query, its header line followed by its match lines. -/
def plainLines {σ : Type} (showScore : σ → Str) (batch : List (Matches σ)) : List Str :=
  batch.enum.flatMap (fun p => cameraLine p.1 :: p.2.map (plainLine showScore p.1))

/-- The matlab line of a query: a 1-based cell assignment of the id, score pairs. -/
def matlabLine {σ : Type} (showScore : σ → Str) (i : Nat) (ms : Matches σ) : Str :=
  "m\x7b".toList ++ showNat (i + 1) ++ "\x7d=[ ".toList ++
    ms.flatMap (fun m => showNat m.id ++ ", ".toList ++ showScore m.score ++ "; ".toList) ++
    "];".toList

/-- Matlab report: one line per query, in query order. -/
def matlabLines {σ : Type} (showScore : σ → Str) (batch : List (Matches σ)) : List Str :=
  batch.enum.map (fun p => matlabLine showScore p.1 p.2)

/-! ## Projections of the loops

What the loops of `main` write, request and count, component by component; the section
"The loops, decomposed" proves that `matchLoop`, `queryBody` and `queryLoop` return the state
made of these components. -/

/-- The link created for the match of rank `j` whose view is `v`. -/
def matchLink {σ : Type} (env : Env σ) (sfmdata : SfM_Data) (dirname : Str) (j : Nat)
    (v : View) : Event :=
  Event.createSymlink (env.join sfmdata.s_root_path v.s_Img_path)
    (env.join dirname (myToString j 4 ++ ['.'] ++ env.filename v.s_Img_path))

/-- Every matched id has a view in the scene description. -/
def allResolve {σ : Type} (sfmdata : SfM_Data) (ms : Matches σ) : Bool :=
  ms.all (fun m => (sfmdata.find m.id).isSome)

/-- Links created by the match loop from rank `j` on, up to the first id without a view. -/
def matchLinks {σ : Type} (env : Env σ) (sfmdata : SfM_Data) (dirname : Str) :
    Nat → Matches σ → List Event
  | _, [] => []
  | j, m :: rest =>
    match sfmdata.find m.id with
    | some v => matchLink env sfmdata dirname j v :: matchLinks env sfmdata dirname (j + 1) rest
    | none => []

/-- Text written by the match loop of query `i`, up to the first id without a view. -/
def matchText {σ : Type} (env : Env σ) (cfg : Config) (fl : Flags) (sfmdata : SfM_Data)
    (i : Nat) : Matches σ → Str
  | [] => []
  | m :: rest =>
    (if fl.withOutput && !cfg.matlabOutput then plainLine env.showScore i m ++ ['\n'] else []) ++
    (if fl.withOutDir && (sfmdata.find m.id).isNone then []
     else matchText env cfg fl sfmdata i rest)

/-- Text written at lines 319-330 for query `i`. -/
def headerText {σ : Type} (env : Env σ) (cfg : Config) (fl : Flags) (i : Nat)
    (ms : Matches σ) : Str :=
  if fl.withOutput then
    if !cfg.matlabOutput then cameraLine i ++ ['\n']
    else matlabLine env.showScore i ms ++ ['\n']
  else []

/-- The link to the query image itself, created in the bucket of query `i`. -/
def queryLink {σ : Type} (env : Env σ) (cfg : Config) (sfmdataQuery : SfM_Data) (v : View) :
    Event :=
  Event.createSymlink (env.join sfmdataQuery.s_root_path (env.filename v.s_Img_path))
    (env.join (env.join (cfg.outDir.getD []) (env.filename v.s_Img_path))
      (env.filename v.s_Img_path))

/-- File-system requests of one pass of the query loop in symlink-tree mode. -/
def bucketEvents {σ : Type} (env : Env σ) (cfg : Config) (sfmdata sfmdataQuery : SfM_Data)
    (i : Nat) (ms : Matches σ) : List Event :=
  match sfmdataQuery.find i with
  | none => []
  | some v =>
    [Event.createDirectories (env.join (cfg.outDir.getD []) (env.filename v.s_Img_path)),
     queryLink env cfg sfmdataQuery v] ++
    matchLinks env sfmdata (env.join (cfg.outDir.getD []) (env.filename v.s_Img_path)) 0 ms

/-- Query `i` and all its matched ids have a view. -/
def bucketResolves {σ : Type} (sfmdata sfmdataQuery : SfM_Data) (i : Nat) (ms : Matches σ) :
    Bool :=
  (sfmdataQuery.find i).isSome && allResolve sfmdata ms

/-- Text written by one pass of the query loop. -/
def bodyText {σ : Type} (env : Env σ) (cfg : Config) (fl : Flags)
    (sfmdata sfmdataQuery : SfM_Data) (i : Nat) (ms : Matches σ) : Str :=
  headerText env cfg fl i ms ++
    (if fl.withOutDir && (sfmdataQuery.find i).isNone then []
     else matchText env cfg fl sfmdata i ms)

/-- The best match of query `i` is not document `i`. -/
def isWrong {σ : Type} (i : Nat) (ms : Matches σ) : Bool :=
  match ms.head? with
  | some best => decide (i ≠ best.id)
  | none => false

/-- One pass of the query loop runs to its end. -/
def bodyOk {σ : Type} (fl : Flags) (sfmdata sfmdataQuery : SfM_Data) (i : Nat)
    (ms : Matches σ) : Bool :=
  !fl.withOutDir || bucketResolves sfmdata sfmdataQuery i ms

/-- The query loop from index `i` on runs to its end. -/
def loopOk {σ : Type} (fl : Flags) (sfmdata sfmdataQuery : SfM_Data) :
    Nat → List (Matches σ) → Bool
  | _, [] => true
  | i, ms :: rest =>
    bodyOk fl sfmdata sfmdataQuery i ms && loopOk fl sfmdata sfmdataQuery (i + 1) rest

/-- File-system requests of the query loop from index `i` on, up to the first failed lookup. -/
def treeEvents {σ : Type} (env : Env σ) (cfg : Config) (fl : Flags)
    (sfmdata sfmdataQuery : SfM_Data) : Nat → List (Matches σ) → List Event
  | _, [] => []
  | i, ms :: rest =>
    (if fl.withOutDir then bucketEvents env cfg sfmdata sfmdataQuery i ms else []) ++
    (if bodyOk fl sfmdata sfmdataQuery i ms then
      treeEvents env cfg fl sfmdata sfmdataQuery (i + 1) rest else [])

/-- Text written by the query loop from index `i` on, up to the first failed lookup. -/
def reportText {σ : Type} (env : Env σ) (cfg : Config) (fl : Flags)
    (sfmdata sfmdataQuery : SfM_Data) : Nat → List (Matches σ) → Str
  | _, [] => []
  | i, ms :: rest =>
    bodyText env cfg fl sfmdata sfmdataQuery i ms ++
    (if bodyOk fl sfmdata sfmdataQuery i ms then
      reportText env cfg fl sfmdata sfmdataQuery (i + 1) rest else [])

/-- Wrong matches counted by the query loop from index `i` on, up to the first failed lookup. -/
def wrongCount {σ : Type} (fl : Flags) (sfmdata sfmdataQuery : SfM_Data) :
    Nat → List (Matches σ) → Nat
  | _, [] => 0
  | i, ms :: rest =>
    if bodyOk fl sfmdata sfmdataQuery i ms then
      (if !fl.withQuery && isWrong i ms then 1 else 0) +
        wrongCount fl sfmdata sfmdataQuery (i + 1) rest
    else 0

/-- No request of the list throws, the requests being made in order after the calls `hist`. -/
def quiet {σ : Type} (env : Env σ) : List Event → List Event → Bool
  | _, [] => true
  | hist, e :: es => !env.fsThrows hist e && quiet env (hist ++ [e]) es

/-- The requests of the list that are made, in order after the calls `hist`: all of them up
to and including the first one that throws. -/
def issued {σ : Type} (env : Env σ) : List Event → List Event → List Event
  | _, [] => []
  | hist, e :: es => e :: (if env.fsThrows hist e then [] else issued env (hist ++ [e]) es)

/-- The scene descriptions loaded at lines 270-302, with the load calls made; `none` when a
load fails. -/
def sceneLoad {σ : Type} (env : Env σ) (cfg : Config) (fl : Flags) :
    List Event × Option (SfM_Data × SfM_Data) :=
  if fl.withOutDir then
    match env.sfmLoad cfg.keylist with
    | none => ([Event.sfmLoad cfg.keylist], none)
    | some sfmdata =>
      match cfg.queryList with
      | none => ([Event.sfmLoad cfg.keylist], some (sfmdata, sfmdata))
      | some q =>
        ([Event.sfmLoad cfg.keylist, Event.sfmLoad q],
          (env.sfmLoad q).map (fun sfmdataQuery => (sfmdata, sfmdataQuery)))
  else ([], some (⟨[], []⟩, ⟨[], []⟩))

/-- The calls made before any file-system request: build, query and scene loading. -/
def loadEvents {σ : Type} (env : Env σ) (cfg : Config) : List Event :=
  (buildPhase env cfg (flagsOf env cfg)).1 ++ [(queryPhase env cfg (resolveCount env cfg)).1] ++
    (sceneLoad env cfg (flagsOf env cfg)).1

/-- The request for the output directory, lines 305-309. -/
def outDirRequest {σ : Type} (env : Env σ) (cfg : Config) (fl : Flags) : List Event :=
  if fl.withOutDir && !env.pathExists (cfg.outDir.getD []) then
    [Event.createDirectories (cfg.outDir.getD [])]
  else []

/-- The file-system requests of a run, in order, up to the first failed lookup, when none of
them throws. -/
def fsRequests {σ : Type} (env : Env σ) (cfg : Config) (sfmdata sfmdataQuery : SfM_Data) :
    List Event :=
  outDirRequest env cfg (flagsOf env cfg) ++
    treeEvents env cfg (flagsOf env cfg) sfmdata sfmdataQuery 0 (batchOf env cfg)

/-! ## Reading the reports back -/

/-- A query index, a matched id and a score as printed. -/
abbrev Triple := Nat × Nat × Str

/-- The triples of a batch: queries ascending, matches of a query in rank order. -/
def triples {σ : Type} (showScore : σ → Str) (batch : List (Matches σ)) : List Triple :=
  batch.enum.flatMap (fun p => p.2.map (fun m => (p.1, m.id, showScore m.score)))

/-- Value of a non-empty run of decimal digits. -/
def readNat (s : Str) : Option Nat :=
  if !s.isEmpty && s.all Char.isDigit then
    some (s.foldl (fun n c => 10 * n + (c.toNat - 48)) 0)
  else none

/-- Decoding line by line; a line that is not understood makes the decoding fail. -/
def decodeLines (f : Str → Option (List Triple)) : List Str → Option (List Triple)
  | [] => some []
  | l :: ls =>
    match f l, decodeLines f ls with
    | some a, some b => some (a ++ b)
    | _, _ => none

/-- A line of the plain report: empty, a header "Camera: i", or "i id score". -/
def decodePlainLine (l : Str) : Option (List Triple) :=
  if l = [] then some []
  else
    match l.splitOn ' ' with
    | [a, b] => if a = "Camera:".toList then (readNat b).map (fun _ => []) else none
    | [a, b, c] =>
      match readNat a, readNat b with
      | some i, some d => some [(i, d, c)]
      | _, _ => none
    | _ => none

/-- The triples encoded by a plain report. -/
def decodePlain (text : Str) : Option (List Triple) :=
  decodeLines decodePlainLine (text.splitOn '\n')

/-- The cell index of the first word "m{k}=[" of a matlab line. -/
def readCell : Str → Option Nat
  | 'm' :: '\x7b' :: rest =>
    match rest.splitOn '\x7d' with
    | [k, tl] => if tl = "=[".toList then readNat k else none
    | _ => none
  | _ => none

/-- The pairs "id, score;" of a matlab line up to the closing "];", word by word. -/
def decodePairs : List Str → Option (List (Nat × Str))
  | [] => none
  | [t] => if t = "];".toList then some [] else none
  | a :: b :: rest =>
    if a.getLast? = some ',' ∧ b.getLast? = some ';' then
      match readNat a.dropLast, decodePairs rest with
      | some d, some ps => some ((d, b.dropLast) :: ps)
      | _, _ => none
    else none

/-- A line of the matlab report: empty, or a cell assignment; the cell index is 1-based. -/
def decodeMatlabLine (l : Str) : Option (List Triple) :=
  if l = [] then some []
  else
    match l.splitOn ' ' with
    | hd :: toks =>
      match readCell hd, decodePairs toks with
      | some (k + 1), some ps => some (ps.map (fun p => (k, p.1, p.2)))
      | _, _ => none
    | [] => none

/-- The triples encoded by a matlab report, with 0-based query indices. -/
def decodeMatlab (text : Str) : Option (List Triple) :=
  decodeLines decodeMatlabLine (text.splitOn '\n')

/-- The words of the pairs of a matlab line: "id," and "score;" for each match. -/
def pairWords {σ : Type} (showScore : σ → Str) (ms : Matches σ) : List Str :=
  ms.flatMap (fun m => [showNat m.id ++ [','], showScore m.score ++ [';']])

/-! ## Observations on a run -/

/-- The number of queries whose best match is not the query document itself. -/
def mismatches {σ : Type} (batch : List (Matches σ)) : Nat :=
  batch.enum.countP (fun p => isWrong p.1 p.2)

/-- The links named by rank and file name, one per view, as the match loop creates them. -/
def rankLinks {σ : Type} (env : Env σ) (sfmdata : SfM_Data) (dirname : Str)
    (vs : List View) : List Event :=
  vs.enum.map (fun p => matchLink env sfmdata dirname p.1 p.2)

/-- The file-system entries requested inside a directory, for paths written with `/`. -/
def createdIn (dir : Str) (events : List Event) : List Event :=
  events.filter (fun e =>
    match e with
    | Event.createSymlink _ link => link.take (dir.length + 1) == dir ++ ['/']
    | Event.createDirectories d => d.take (dir.length + 1) == dir ++ ['/']
    | _ => false)

/-- The events of the symlink-tree materialisation: scene loading, directories and links. -/
def isTreeEvent : Event → Bool
  | Event.sfmLoad _ => true
  | Event.createDirectories _ => true
  | Event.createSymlink _ _ => true
  | _ => false

/-- The calls that query the database. -/
def isQueryCall : Event → Bool
  | Event.sanityCheck _ => true
  | Event.queryDatabase _ _ => true
  | _ => false

/-! ## A small corpus for the examples -/

/-- Last component of a path written with `/`. -/
def demoFilename (p : Str) : Str := (p.splitOn '/').getLast?.getD []

/-- The part of the last component from its last dot on, empty when it has no dot. -/
def demoExtension (p : Str) : Str :=
  if '.' ∈ demoFilename p then
    '.' :: ((demoFilename p).reverse.takeWhile (fun c => c != '.')).reverse
  else []

/-- Two documents; the best match of document 1 is document 0. Scores are given as printed. -/
def demoBatch : List (Matches Str) :=
  [[⟨0, "1".toList⟩, ⟨1, "0.25".toList⟩], [⟨0, "0.5".toList⟩, ⟨1, "0.5".toList⟩]]

/-- The paths created by the calls made so far, as links and as directories. -/
def demoCreated (hist : List Event) : List Str × List Str :=
  (hist.filterMap (fun e =>
      match e with
      | Event.createSymlink _ link => some link
      | _ => none),
    hist.filterMap (fun e =>
      match e with
      | Event.createDirectories d => some d
      | _ => none))

/-- The file system of the demo runs, empty at the start: `create_symlink` throws when the
path of the link exists, `create_directories` throws when the path exists as a link. -/
def demoFsThrows (hist : List Event) : Event → Bool
  | Event.createSymlink _ link =>
    decide (link ∈ (demoCreated hist).1) || decide (link ∈ (demoCreated hist).2)
  | Event.createDirectories d => decide (d ∈ (demoCreated hist).1)
  | _ => false

/-- The scene description of the demo corpus: two images under the root `/data`. -/
def demoScene : SfM_Data :=
  ⟨[(0, ⟨"img/a.jpg".toList⟩), (1, ⟨"img/b.jpg".toList⟩)], "/data".toList⟩

/-- The collaborators of the demo runs: paths are written with `/`, six features are read
from any key list, the database answers with the first `k` matches of `demoBatch`, the only
scene description is `scene.json`, and the output directory does not exist yet. -/
def demoEnv : Env Str where
  showScore := id
  extension := demoExtension
  filename := demoFilename
  join := fun a b => a ++ '/' :: b
  pathExists := fun _ => false
  populateDatabase := fun _ => 6
  dbSize := 2
  sanityCheck := fun k => demoBatch.map (List.take k)
  queryDatabase := fun _ k => demoBatch.map (List.take k)
  sfmLoad := fun p => if p = "scene.json".toList then some demoScene else none
  fsThrows := demoFsThrows

/-- Sanity check on the demo corpus with a plain report and no output directory. -/
def demoCfg : Config where
  weightsName := none
  treeName := "voc.tree".toList
  keylist := "scene.json".toList
  queryList := none
  documentMapFile := none
  outDir := none
  numImageQuery := 10
  matlabOutput := false
  outfile := some "out.txt".toList

/-- The demo run with the matlab flag on. -/
def demoMatlabCfg : Config := { demoCfg with matlabOutput := true }

/-- The demo run with an output directory. -/
def demoTreeCfg : Config := { demoCfg with outDir := some "out".toList }

/-- The demo run with an output directory but a bare list file as key list. -/
def demoListCfg : Config :=
  { demoCfg with keylist := "list.txt".toList, outDir := some "out".toList }

/-- The demo run as an external query. -/
def demoQueryCfg : Config := { demoCfg with queryList := some "query.json".toList }

/-- The demo run with a requested count of 0. -/
def demoAllCfg : Config := { demoCfg with numImageQuery := 0 }

/-- A scene description of the demo corpus that lacks the view of document 1. -/
def demoShortScene : SfM_Data := ⟨[(0, ⟨"img/a.jpg".toList⟩)], "/data".toList⟩

/-- The demo collaborators with the short scene description. -/
def demoShortEnv : Env Str :=
  { demoEnv with sfmLoad := fun p => if p = "scene.json".toList then some demoShortScene else none }

/-- The demo collaborators with a query list that holds no document: no descriptor is read
from it and the external query delivers no match list. -/
def demoEmptyQueryEnv : Env Str := { demoEnv with queryDatabase := fun _ _ => [] }

/-- The demo collaborators with a key list from which no descriptor is read. -/
def demoNoFeatureEnv : Env Str := { demoEnv with populateDatabase := fun _ => 0 }

/-- The demo run with the matlab flag on and an output directory. -/
def demoMatlabTreeCfg : Config :=
  { demoCfg with matlabOutput := true, outDir := some "out".toList }

/-- A scene description of the demo corpus that lacks the view of document 0. -/
def demoLateScene : SfM_Data := ⟨[(1, ⟨"img/b.jpg".toList⟩)], "/data".toList⟩

/-- The demo collaborators with the scene description that lacks the view of document 0. -/
def demoLateEnv : Env Str :=
  { demoEnv with sfmLoad := fun p => if p = "scene.json".toList then some demoLateScene else none }

/-- A scene description of the demo corpus whose two images have the same file name. -/
def demoTwinScene : SfM_Data :=
  ⟨[(0, ⟨"left/x.jpg".toList⟩), (1, ⟨"right/x.jpg".toList⟩)], "/data".toList⟩

/-- The demo collaborators with the scene description whose images share a file name. -/
def demoTwinEnv : Env Str :=
  { demoEnv with sfmLoad := fun p => if p = "scene.json".toList then some demoTwinScene else none }

/-! ## The loops, decomposed -/

theorem putMatches_eq {σ : Type} (showScore : σ → Str) (os : Str) (ms : Matches σ) :
    putMatches showScore os ms = os ++ "[ ".toList ++
      ms.flatMap (fun m => showNat m.id ++ ", ".toList ++ showScore m.score ++ "; ".toList) ++
      "];\n".toList := by
  unfold putMatches
  simp only
  congr 1
  generalize os ++ "[ ".toList = acc
  induction ms generalizing acc with
  | nil => simp
  | cons m rest ih =>
    rw [List.foldl_cons, ih, List.flatMap_cons]
    simp only [List.append_assoc]

theorem allResolve_cons {σ : Type} (sfmdata : SfM_Data) (m : Match σ) (rest : Matches σ) :
    allResolve sfmdata (m :: rest) = ((sfmdata.find m.id).isSome && allResolve sfmdata rest) := by
  simp [allResolve]

theorem quiet_append {σ : Type} (env : Env σ) (a b : List Event) : ∀ hist,
    quiet env hist (a ++ b) = (quiet env hist a && quiet env (hist ++ a) b) := by
  induction a with
  | nil => intro hist; simp [quiet]
  | cons e es ih =>
    intro hist
    simp [quiet, ih, Bool.and_assoc]

theorem issued_append_quiet {σ : Type} (env : Env σ) (a b : List Event) : ∀ hist,
    quiet env hist a = true → issued env hist (a ++ b) = a ++ issued env (hist ++ a) b := by
  induction a with
  | nil => intro hist _; simp
  | cons e es ih =>
    intro hist h
    simp only [quiet, Bool.and_eq_true, Bool.not_eq_true'] at h
    simp [issued, h.1, ih _ h.2]

theorem issued_append_loud {σ : Type} (env : Env σ) (a b : List Event) : ∀ hist,
    quiet env hist a = false → issued env hist (a ++ b) = issued env hist a := by
  induction a with
  | nil => intro hist h; simp [quiet] at h
  | cons e es ih =>
    intro hist h
    cases ht : env.fsThrows hist e with
    | true => simp [issued, ht]
    | false =>
      simp only [quiet, ht, Bool.not_false, Bool.true_and] at h
      rw [List.cons_append, issued, issued, ih _ h]

theorem mem_of_mem_issued {σ : Type} (env : Env σ) (es : List Event) : ∀ hist e,
    e ∈ issued env hist es → e ∈ es := by
  induction es with
  | nil => intro hist e h; simp [issued] at h
  | cons x xs ih =>
    intro hist e h
    simp only [issued, List.mem_cons] at h
    rcases h with h | h
    · exact h ▸ List.mem_cons_self _ _
    · split at h
      · simp at h
      · exact List.mem_cons_of_mem _ (ih _ e h)

theorem matchLoop_cons_off {σ : Type} (env : Env σ) (cfg : Config) (fl : Flags)
    (sfmdata : SfM_Data) (dirname : Str) (i j : Nat) (m : Match σ) (rest : Matches σ)
    (st : State) (hd : fl.withOutDir = false) :
    matchLoop env cfg fl sfmdata dirname i j (m :: rest) st =
      matchLoop env cfg fl sfmdata dirname i (j + 1) rest
        ⟨st.events, st.fileout ++ (if fl.withOutput && !cfg.matlabOutput then
            plainLine env.showScore i m ++ ['\n'] else []), st.wrong⟩ := by
  rw [matchLoop]
  cases hp : (fl.withOutput && !cfg.matlabOutput) <;>
    simp [hd, plainLine, List.append_assoc]

theorem matchLoop_cons_none {σ : Type} (env : Env σ) (cfg : Config) (fl : Flags)
    (sfmdata : SfM_Data) (dirname : Str) (i j : Nat) (m : Match σ) (rest : Matches σ)
    (st : State) (hd : fl.withOutDir = true) (hf : sfmdata.find m.id = none) :
    matchLoop env cfg fl sfmdata dirname i j (m :: rest) st =
      Flow.ret EXIT_FAILURE
        ⟨st.events, st.fileout ++ (if fl.withOutput && !cfg.matlabOutput then
            plainLine env.showScore i m ++ ['\n'] else []), st.wrong⟩ := by
  rw [matchLoop]
  cases hp : (fl.withOutput && !cfg.matlabOutput) <;>
    simp [hd, hf, plainLine, List.append_assoc]

theorem matchLoop_cons_next {σ : Type} (env : Env σ) (cfg : Config) (fl : Flags)
    (sfmdata : SfM_Data) (dirname : Str) (i j : Nat) (m : Match σ) (rest : Matches σ)
    (st : State) (v : View) (hd : fl.withOutDir = true) (hf : sfmdata.find m.id = some v)
    (ht : env.fsThrows st.events (matchLink env sfmdata dirname j v) = false) :
    matchLoop env cfg fl sfmdata dirname i j (m :: rest) st =
      matchLoop env cfg fl sfmdata dirname i (j + 1) rest
        ⟨st.events ++ [matchLink env sfmdata dirname j v],
          st.fileout ++ (if fl.withOutput && !cfg.matlabOutput then
            plainLine env.showScore i m ++ ['\n'] else []), st.wrong⟩ := by
  rw [matchLoop]
  simp only [matchLink, List.append_assoc, List.singleton_append] at ht
  cases hp : (fl.withOutput && !cfg.matlabOutput) <;>
    simp [hd, hf, request, ht, matchLink, plainLine, List.append_assoc]

theorem matchLoop_cons_abort {σ : Type} (env : Env σ) (cfg : Config) (fl : Flags)
    (sfmdata : SfM_Data) (dirname : Str) (i j : Nat) (m : Match σ) (rest : Matches σ)
    (st : State) (v : View) (hd : fl.withOutDir = true) (hf : sfmdata.find m.id = some v)
    (ht : env.fsThrows st.events (matchLink env sfmdata dirname j v) = true) :
    matchLoop env cfg fl sfmdata dirname i j (m :: rest) st =
      Flow.abort
        ⟨st.events ++ [matchLink env sfmdata dirname j v],
          st.fileout ++ (if fl.withOutput && !cfg.matlabOutput then
            plainLine env.showScore i m ++ ['\n'] else []), st.wrong⟩ := by
  rw [matchLoop]
  simp only [matchLink, List.append_assoc, List.singleton_append] at ht
  cases hp : (fl.withOutput && !cfg.matlabOutput) <;>
    simp [hd, hf, request, ht, matchLink, plainLine, List.append_assoc]

theorem matchLoop_off {σ : Type} (env : Env σ) (cfg : Config) (fl : Flags) (sfmdata : SfM_Data)
    (dirname : Str) (i : Nat) (hd : fl.withOutDir = false) (ms : Matches σ) :
    ∀ (j : Nat) (st : State),
    matchLoop env cfg fl sfmdata dirname i j ms st =
      Flow.next ⟨st.events, st.fileout ++ matchText env cfg fl sfmdata i ms, st.wrong⟩ := by
  induction ms with
  | nil => intro j st; simp [matchLoop, matchText]
  | cons m rest ih =>
    intro j st
    rw [matchLoop_cons_off env cfg fl sfmdata dirname i j m rest st hd, ih, matchText]
    simp [hd, List.append_assoc]

theorem matchLoop_quiet {σ : Type} (env : Env σ) (cfg : Config) (fl : Flags)
    (sfmdata : SfM_Data) (dirname : Str) (i : Nat) (hd : fl.withOutDir = true)
    (ms : Matches σ) : ∀ (j : Nat) (st : State),
    quiet env st.events (matchLinks env sfmdata dirname j ms) = true →
    matchLoop env cfg fl sfmdata dirname i j ms st =
      if allResolve sfmdata ms then
        Flow.next ⟨st.events ++ matchLinks env sfmdata dirname j ms,
          st.fileout ++ matchText env cfg fl sfmdata i ms, st.wrong⟩
      else
        Flow.ret EXIT_FAILURE ⟨st.events ++ matchLinks env sfmdata dirname j ms,
          st.fileout ++ matchText env cfg fl sfmdata i ms, st.wrong⟩ := by
  induction ms with
  | nil => intro j st _; simp [matchLoop, allResolve, matchText, matchLinks]
  | cons m rest ih =>
    intro j st hq
    rw [allResolve_cons, matchText]
    rw [matchLinks] at hq ⊢
    cases hf : sfmdata.find m.id with
    | none =>
      rw [matchLoop_cons_none env cfg fl sfmdata dirname i j m rest st hd hf]
      simp [hd]
    | some v =>
      rw [hf] at hq
      simp only [quiet, Bool.and_eq_true, Bool.not_eq_true'] at hq
      rw [matchLoop_cons_next env cfg fl sfmdata dirname i j m rest st v hd hf hq.1,
        ih (j + 1) _ hq.2]
      cases hr : allResolve sfmdata rest <;> simp [hd, List.append_assoc]

theorem matchLoop_loud {σ : Type} (env : Env σ) (cfg : Config) (fl : Flags)
    (sfmdata : SfM_Data) (dirname : Str) (i : Nat) (hd : fl.withOutDir = true)
    (ms : Matches σ) : ∀ (j : Nat) (st : State),
    quiet env st.events (matchLinks env sfmdata dirname j ms) = false →
    ∃ text, matchLoop env cfg fl sfmdata dirname i j ms st =
      Flow.abort ⟨st.events ++ issued env st.events (matchLinks env sfmdata dirname j ms),
        st.fileout ++ text, st.wrong⟩ := by
  induction ms with
  | nil => intro j st h; simp [matchLinks, quiet] at h
  | cons m rest ih =>
    intro j st hq
    rw [matchLinks] at hq ⊢
    cases hf : sfmdata.find m.id with
    | none =>
      rw [hf] at hq
      simp [quiet] at hq
    | some v =>
      rw [hf] at hq
      simp only
      cases ht : env.fsThrows st.events (matchLink env sfmdata dirname j v) with
      | true =>
        rw [matchLoop_cons_abort env cfg fl sfmdata dirname i j m rest st v hd hf ht]
        refine ⟨(if fl.withOutput && !cfg.matlabOutput then
          plainLine env.showScore i m ++ ['\n'] else []), ?_⟩
        simp [issued, ht]
      | false =>
        simp only [quiet, ht, Bool.not_false, Bool.true_and] at hq
        rw [matchLoop_cons_next env cfg fl sfmdata dirname i j m rest st v hd hf ht]
        obtain ⟨text, h⟩ := ih (j + 1)
          ⟨st.events ++ [matchLink env sfmdata dirname j v],
            st.fileout ++ (if fl.withOutput && !cfg.matlabOutput then
              plainLine env.showScore i m ++ ['\n'] else []), st.wrong⟩ hq
        rw [h]
        refine ⟨(if fl.withOutput && !cfg.matlabOutput then
          plainLine env.showScore i m ++ ['\n'] else []) ++ text, ?_⟩
        simp [issued, ht, List.append_assoc]

theorem request_next {σ : Type} (env : Env σ) (e : Event) (st : State)
    (ht : env.fsThrows st.events e = false) :
    request env e st = Flow.next ⟨st.events ++ [e], st.fileout, st.wrong⟩ := by
  simp [request, ht]

theorem request_abort {σ : Type} (env : Env σ) (e : Event) (st : State)
    (ht : env.fsThrows st.events e = true) :
    request env e st = Flow.abort ⟨st.events ++ [e], st.fileout, st.wrong⟩ := by
  simp [request, ht]

theorem headerText_eq {σ : Type} (env : Env σ) (cfg : Config) (fl : Flags) (i : Nat)
    (ms : Matches σ) (st : State) :
    (if fl.withOutput then
        if !cfg.matlabOutput then
          { st with fileout := st.fileout ++ "Camera: ".toList ++ showNat i ++ "\n".toList }
        else
          { st with fileout := (putMatches env.showScore
              (st.fileout ++ "m\x7b".toList ++ showNat (i + 1) ++ "\x7d=".toList) ms) }
      else st) = ⟨st.events, st.fileout ++ headerText env cfg fl i ms, st.wrong⟩ := by
  cases hw : fl.withOutput <;> cases hm : cfg.matlabOutput <;>
    simp [headerText, hw, hm, putMatches_eq, cameraLine, matlabLine, List.append_assoc]

theorem tallyWrong_eq {σ : Type} (fl : Flags) (i : Nat) (best : Match σ) (tl : Matches σ)
    (st : State) :
    tallyWrong fl i best.id st =
      ⟨st.events, st.fileout,
        st.wrong + (if !fl.withQuery && isWrong i (best :: tl) then 1 else 0)⟩ := by
  cases hw : fl.withQuery <;> by_cases hb : i = best.id <;>
    simp [tallyWrong, isWrong, hb, hw]

theorem queryBody_off {σ : Type} (env : Env σ) (cfg : Config) (fl : Flags)
    (sfmdata sfmdataQuery : SfM_Data) (i : Nat) (ms : Matches σ) (st : State) (hne : ms ≠ [])
    (hd : fl.withOutDir = false) :
    queryBody env cfg fl sfmdata sfmdataQuery i ms st =
      Flow.next ⟨st.events, st.fileout ++ bodyText env cfg fl sfmdata sfmdataQuery i ms,
        st.wrong + (if !fl.withQuery && isWrong i ms then 1 else 0)⟩ := by
  cases ms with
  | nil => exact absurd rfl hne
  | cons best tl =>
    unfold queryBody
    simp only [List.head?_cons]
    rw [headerText_eq]
    simp only [hd, Bool.false_eq_true, if_false, matchLoop_off env cfg fl sfmdata _ i hd,
      tallyWrong_eq fl i best tl, bodyText, Bool.false_and, List.append_assoc]

theorem queryBody_none {σ : Type} (env : Env σ) (cfg : Config) (fl : Flags)
    (sfmdata sfmdataQuery : SfM_Data) (i : Nat) (ms : Matches σ) (st : State) (hne : ms ≠ [])
    (hd : fl.withOutDir = true) (hq : sfmdataQuery.find i = none) :
    queryBody env cfg fl sfmdata sfmdataQuery i ms st =
      Flow.ret EXIT_FAILURE
        ⟨st.events, st.fileout ++ bodyText env cfg fl sfmdata sfmdataQuery i ms, st.wrong⟩ := by
  cases ms with
  | nil => exact absurd rfl hne
  | cons best tl =>
    unfold queryBody
    simp only [List.head?_cons]
    rw [headerText_eq]
    simp [hd, hq, bodyText]

theorem queryBody_some {σ : Type} (env : Env σ) (cfg : Config) (fl : Flags)
    (sfmdata sfmdataQuery : SfM_Data) (i : Nat) (best : Match σ) (tl : Matches σ) (st : State)
    (v : View) (hd : fl.withOutDir = true) (hq : sfmdataQuery.find i = some v) :
    queryBody env cfg fl sfmdata sfmdataQuery i (best :: tl) st =
      match request env
          (Event.createDirectories (env.join (cfg.outDir.getD []) (env.filename v.s_Img_path)))
          ⟨st.events, st.fileout ++ headerText env cfg fl i (best :: tl), st.wrong⟩ with
      | Flow.next st =>
        match request env (queryLink env cfg sfmdataQuery v) st with
        | Flow.next st =>
          match matchLoop env cfg fl sfmdata
              (env.join (cfg.outDir.getD []) (env.filename v.s_Img_path)) i 0 (best :: tl)
              st with
          | Flow.next st => Flow.next (tallyWrong fl i best.id st)
          | r => r
        | r => r
      | r => r := by
  unfold queryBody
  simp only [List.head?_cons]
  rw [headerText_eq]
  simp only [hd, if_true, hq, queryLink]

theorem queryBody_quiet {σ : Type} (env : Env σ) (cfg : Config) (fl : Flags)
    (sfmdata sfmdataQuery : SfM_Data) (i : Nat) (ms : Matches σ) (st : State) (hne : ms ≠ [])
    (hd : fl.withOutDir = true)
    (hq : quiet env st.events (bucketEvents env cfg sfmdata sfmdataQuery i ms) = true) :
    queryBody env cfg fl sfmdata sfmdataQuery i ms st =
      if bucketResolves sfmdata sfmdataQuery i ms then
        Flow.next
          ⟨st.events ++ bucketEvents env cfg sfmdata sfmdataQuery i ms,
            st.fileout ++ bodyText env cfg fl sfmdata sfmdataQuery i ms,
            st.wrong + (if !fl.withQuery && isWrong i ms then 1 else 0)⟩
      else
        Flow.ret EXIT_FAILURE
          ⟨st.events ++ bucketEvents env cfg sfmdata sfmdataQuery i ms,
            st.fileout ++ bodyText env cfg fl sfmdata sfmdataQuery i ms, st.wrong⟩ := by
  cases hf : sfmdataQuery.find i with
  | none =>
    rw [queryBody_none env cfg fl sfmdata sfmdataQuery i ms st hne hd hf]
    simp [bucketResolves, bucketEvents, hf]
  | some v =>
    cases ms with
    | nil => exact absurd rfl hne
    | cons best tl =>
      simp only [bucketEvents, hf, List.cons_append, List.nil_append, quiet, Bool.and_eq_true,
        Bool.not_eq_true'] at hq
      obtain ⟨h1, h2, h3⟩ := hq
      rw [queryBody_some env cfg fl sfmdata sfmdataQuery i best tl st v hd hf,
        request_next env _
            ⟨st.events, st.fileout ++ headerText env cfg fl i (best :: tl), st.wrong⟩ h1]
      simp only
      rw [request_next env _
          ⟨st.events ++ [Event.createDirectories
              (env.join (cfg.outDir.getD []) (env.filename v.s_Img_path))],
            st.fileout ++ headerText env cfg fl i (best :: tl), st.wrong⟩ h2]
      simp only
      rw [matchLoop_quiet env cfg fl sfmdata _ i hd (best :: tl) 0 _ h3]
      cases hr : allResolve sfmdata (best :: tl) <;>
        simp [bucketResolves, bucketEvents, bodyText, hd, hf, hr, tallyWrong_eq fl i best tl,
          List.append_assoc]

theorem queryBody_loud {σ : Type} (env : Env σ) (cfg : Config) (fl : Flags)
    (sfmdata sfmdataQuery : SfM_Data) (i : Nat) (ms : Matches σ) (st : State) (hne : ms ≠ [])
    (hd : fl.withOutDir = true)
    (hq : quiet env st.events (bucketEvents env cfg sfmdata sfmdataQuery i ms) = false) :
    ∃ text, queryBody env cfg fl sfmdata sfmdataQuery i ms st =
      Flow.abort
        ⟨st.events ++ issued env st.events (bucketEvents env cfg sfmdata sfmdataQuery i ms),
          st.fileout ++ text, st.wrong⟩ := by
  cases hf : sfmdataQuery.find i with
  | none => simp [bucketEvents, hf, quiet] at hq
  | some v =>
    cases ms with
    | nil => exact absurd rfl hne
    | cons best tl =>
      rw [queryBody_some env cfg fl sfmdata sfmdataQuery i best tl st v hd hf]
      simp only [bucketEvents, hf, List.cons_append, List.nil_append] at hq ⊢
      cases h1 : env.fsThrows st.events
          (Event.createDirectories (env.join (cfg.outDir.getD []) (env.filename v.s_Img_path)))
        with
      | true =>
        rw [request_abort env _
            ⟨st.events, st.fileout ++ headerText env cfg fl i (best :: tl), st.wrong⟩ h1]
        refine ⟨headerText env cfg fl i (best :: tl), ?_⟩
        simp [issued, h1]
      | false =>
        rw [request_next env _
            ⟨st.events, st.fileout ++ headerText env cfg fl i (best :: tl), st.wrong⟩ h1]
        simp only
        cases h2 : env.fsThrows
            (st.events ++ [Event.createDirectories
              (env.join (cfg.outDir.getD []) (env.filename v.s_Img_path))])
            (queryLink env cfg sfmdataQuery v) with
        | true =>
          rw [request_abort env _
              ⟨st.events ++ [Event.createDirectories
                  (env.join (cfg.outDir.getD []) (env.filename v.s_Img_path))],
                st.fileout ++ headerText env cfg fl i (best :: tl), st.wrong⟩ h2]
          refine ⟨headerText env cfg fl i (best :: tl), ?_⟩
          simp [issued, h1, h2]
        | false =>
          rw [request_next env _
              ⟨st.events ++ [Event.createDirectories
                  (env.join (cfg.outDir.getD []) (env.filename v.s_Img_path))],
                st.fileout ++ headerText env cfg fl i (best :: tl), st.wrong⟩ h2]
          simp only
          simp only [quiet, h1, h2, Bool.not_false, Bool.true_and] at hq
          obtain ⟨text, h⟩ := matchLoop_loud env cfg fl sfmdata
            (env.join (cfg.outDir.getD []) (env.filename v.s_Img_path)) i hd (best :: tl) 0
            ⟨st.events ++ [Event.createDirectories
                (env.join (cfg.outDir.getD []) (env.filename v.s_Img_path))] ++
              [queryLink env cfg sfmdataQuery v],
              st.fileout ++ headerText env cfg fl i (best :: tl), st.wrong⟩ hq
          rw [h]
          refine ⟨headerText env cfg fl i (best :: tl) ++ text, ?_⟩
          simp [issued, h1, h2, List.append_assoc]

theorem queryBody_calm {σ : Type} (env : Env σ) (cfg : Config) (fl : Flags)
    (sfmdata sfmdataQuery : SfM_Data) (i : Nat) (ms : Matches σ) (st : State) (hne : ms ≠ [])
    (hq : quiet env st.events
      (if fl.withOutDir then bucketEvents env cfg sfmdata sfmdataQuery i ms else []) = true) :
    queryBody env cfg fl sfmdata sfmdataQuery i ms st =
      if bodyOk fl sfmdata sfmdataQuery i ms then
        Flow.next
          ⟨st.events ++
              (if fl.withOutDir then bucketEvents env cfg sfmdata sfmdataQuery i ms else []),
            st.fileout ++ bodyText env cfg fl sfmdata sfmdataQuery i ms,
            st.wrong + (if !fl.withQuery && isWrong i ms then 1 else 0)⟩
      else
        Flow.ret EXIT_FAILURE
          ⟨st.events ++
              (if fl.withOutDir then bucketEvents env cfg sfmdata sfmdataQuery i ms else []),
            st.fileout ++ bodyText env cfg fl sfmdata sfmdataQuery i ms, st.wrong⟩ := by
  cases hd : fl.withOutDir with
  | false =>
    rw [queryBody_off env cfg fl sfmdata sfmdataQuery i ms st hne hd]
    simp [bodyOk, hd]
  | true =>
    simp only [hd, if_true] at hq
    rw [queryBody_quiet env cfg fl sfmdata sfmdataQuery i ms st hne hd hq]
    simp [bodyOk, hd]

theorem queryBody_thrown {σ : Type} (env : Env σ) (cfg : Config) (fl : Flags)
    (sfmdata sfmdataQuery : SfM_Data) (i : Nat) (ms : Matches σ) (st : State) (hne : ms ≠ [])
    (hq : quiet env st.events
      (if fl.withOutDir then bucketEvents env cfg sfmdata sfmdataQuery i ms else []) = false) :
    ∃ text, queryBody env cfg fl sfmdata sfmdataQuery i ms st =
      Flow.abort
        ⟨st.events ++ issued env st.events
            (if fl.withOutDir then bucketEvents env cfg sfmdata sfmdataQuery i ms else []),
          st.fileout ++ text, st.wrong⟩ := by
  cases hd : fl.withOutDir with
  | false => simp [hd, quiet] at hq
  | true =>
    simp only [hd, if_true] at hq ⊢
    exact queryBody_loud env cfg fl sfmdata sfmdataQuery i ms st hne hd hq

theorem queryLoop_calm {σ : Type} (env : Env σ) (cfg : Config) (fl : Flags)
    (sfmdata sfmdataQuery : SfM_Data) (batch : List (Matches σ))
    (hne : ∀ ms ∈ batch, ms ≠ []) : ∀ (i : Nat) (st : State),
    quiet env st.events (treeEvents env cfg fl sfmdata sfmdataQuery i batch) = true →
    queryLoop env cfg fl sfmdata sfmdataQuery i batch st =
      if loopOk fl sfmdata sfmdataQuery i batch then
        Flow.next
          ⟨st.events ++ treeEvents env cfg fl sfmdata sfmdataQuery i batch,
            st.fileout ++ reportText env cfg fl sfmdata sfmdataQuery i batch,
            st.wrong + wrongCount fl sfmdata sfmdataQuery i batch⟩
      else
        Flow.ret EXIT_FAILURE
          ⟨st.events ++ treeEvents env cfg fl sfmdata sfmdataQuery i batch,
            st.fileout ++ reportText env cfg fl sfmdata sfmdataQuery i batch,
            st.wrong + wrongCount fl sfmdata sfmdataQuery i batch⟩ := by
  induction batch with
  | nil => intro i st _; simp [queryLoop, loopOk, treeEvents, reportText, wrongCount]
  | cons ms rest ih =>
    intro i st hq
    have hms : ms ≠ [] := hne ms (List.mem_cons_self _ _)
    have hrest : ∀ x ∈ rest, x ≠ [] := fun x hx => hne x (List.mem_cons_of_mem _ hx)
    rw [treeEvents, quiet_append, Bool.and_eq_true] at hq
    rw [queryLoop, queryBody_calm env cfg fl sfmdata sfmdataQuery i ms st hms hq.1, loopOk,
      treeEvents, reportText, wrongCount]
    cases hb : bodyOk fl sfmdata sfmdataQuery i ms
    · simp
    · have hq2 := hq.2
      simp only [hb, if_true] at hq2 ⊢
      rw [ih hrest (i + 1) _ hq2]
      cases hl : loopOk fl sfmdata sfmdataQuery (i + 1) rest <;>
        simp [List.append_assoc, Nat.add_assoc]

theorem queryLoop_thrown {σ : Type} (env : Env σ) (cfg : Config) (fl : Flags)
    (sfmdata sfmdataQuery : SfM_Data) (batch : List (Matches σ))
    (hne : ∀ ms ∈ batch, ms ≠ []) : ∀ (i : Nat) (st : State),
    quiet env st.events (treeEvents env cfg fl sfmdata sfmdataQuery i batch) = false →
    ∃ text w, (fl.withQuery = true → w = 0) ∧
      queryLoop env cfg fl sfmdata sfmdataQuery i batch st =
        Flow.abort
          ⟨st.events ++
              issued env st.events (treeEvents env cfg fl sfmdata sfmdataQuery i batch),
            st.fileout ++ text, st.wrong + w⟩ := by
  induction batch with
  | nil => intro i st h; simp [treeEvents, quiet] at h
  | cons ms rest ih =>
    intro i st hq
    have hms : ms ≠ [] := hne ms (List.mem_cons_self _ _)
    have hrest : ∀ x ∈ rest, x ≠ [] := fun x hx => hne x (List.mem_cons_of_mem _ hx)
    rw [treeEvents] at hq ⊢
    cases hq1 : quiet env st.events
        (if fl.withOutDir then bucketEvents env cfg sfmdata sfmdataQuery i ms else []) with
    | false =>
      obtain ⟨text, h⟩ := queryBody_thrown env cfg fl sfmdata sfmdataQuery i ms st hms hq1
      refine ⟨text, 0, fun _ => rfl, ?_⟩
      rw [queryLoop, h, issued_append_loud env _ _ _ hq1]
      rfl
    | true =>
      rw [quiet_append, hq1, Bool.true_and] at hq
      cases hb : bodyOk fl sfmdata sfmdataQuery i ms with
      | false => simp [hb, quiet] at hq
      | true =>
        simp only [hb, if_true] at hq ⊢
        rw [queryLoop, queryBody_calm env cfg fl sfmdata sfmdataQuery i ms st hms hq1]
        simp only [hb, if_true]
        obtain ⟨text, w, hw, h⟩ := ih hrest (i + 1)
          ⟨st.events ++
              (if fl.withOutDir then bucketEvents env cfg sfmdata sfmdataQuery i ms else []),
            st.fileout ++ bodyText env cfg fl sfmdata sfmdataQuery i ms,
            st.wrong + (if !fl.withQuery && isWrong i ms then 1 else 0)⟩ hq
        rw [h, issued_append_quiet env _ _ _ hq1]
        refine ⟨bodyText env cfg fl sfmdata sfmdataQuery i ms ++ text,
          (if !fl.withQuery && isWrong i ms then 1 else 0) + w, ?_, ?_⟩
        · intro hwq
          simp [hwq, hw hwq]
        · simp [List.append_assoc, Nat.add_assoc]

theorem buildPhase_snd {σ : Type} (env : Env σ) (cfg : Config) (fl : Flags)
    (hfeat : env.populateDatabase cfg.keylist ≠ 0) :
    (buildPhase env cfg fl).2 = some (resolveCount env cfg) := by
  simp [buildPhase, hfeat]

theorem buildPhase_zero {σ : Type} (env : Env σ) (cfg : Config) (fl : Flags)
    (hfeat : env.populateDatabase cfg.keylist = 0) :
    (buildPhase env cfg fl).2 = none := by
  simp [buildPhase, hfeat]

theorem scenePhase_eq {σ : Type} (env : Env σ) (cfg : Config) (fl : Flags) (ev : List Event) :
    scenePhase env cfg fl ev =
      match (sceneLoad env cfg fl).2 with
      | none => (ev ++ (sceneLoad env cfg fl).1, Scene.failed)
      | some (sfmdata, sfmdataQuery) =>
        if quiet env (ev ++ (sceneLoad env cfg fl).1) (outDirRequest env cfg fl) then
          (ev ++ (sceneLoad env cfg fl).1 ++ outDirRequest env cfg fl,
            Scene.ready sfmdata sfmdataQuery)
        else (ev ++ (sceneLoad env cfg fl).1 ++ outDirRequest env cfg fl, Scene.aborted) := by
  unfold scenePhase sceneLoad outDirRequest
  cases hd : fl.withOutDir with
  | false => simp [quiet]
  | true =>
    cases hk : env.sfmLoad cfg.keylist with
    | none => simp
    | some sfmdata =>
      cases hq : cfg.queryList with
      | none =>
        cases hp : env.pathExists (cfg.outDir.getD []) <;>
          cases ht : env.fsThrows (ev ++ [Event.sfmLoad cfg.keylist])
            (Event.createDirectories (cfg.outDir.getD [])) <;>
          simp [hp, ht, quiet]
      | some q =>
        cases hl : env.sfmLoad q with
        | none => simp [hl]
        | some sfmdataQuery =>
          cases hp : env.pathExists (cfg.outDir.getD []) <;>
            cases ht : env.fsThrows (ev ++ [Event.sfmLoad cfg.keylist, Event.sfmLoad q])
              (Event.createDirectories (cfg.outDir.getD [])) <;>
            simp [hl, hp, ht, quiet]

theorem sceneLoad_off {σ : Type} (env : Env σ) (cfg : Config) (fl : Flags)
    (hd : fl.withOutDir = false) :
    sceneLoad env cfg fl = ([], some (⟨[], []⟩, ⟨[], []⟩)) := by
  simp [sceneLoad, hd]

theorem loopOk_off {σ : Type} (fl : Flags) (sfmdata sfmdataQuery : SfM_Data)
    (hd : fl.withOutDir = false) (batch : List (Matches σ)) :
    ∀ i, loopOk fl sfmdata sfmdataQuery i batch = true := by
  induction batch with
  | nil => intro i; rfl
  | cons ms rest ih => intro i; simp [loopOk, bodyOk, hd, ih]

theorem treeEvents_off {σ : Type} (env : Env σ) (cfg : Config) (fl : Flags)
    (sfmdata sfmdataQuery : SfM_Data) (hd : fl.withOutDir = false) (batch : List (Matches σ)) :
    ∀ i, treeEvents env cfg fl sfmdata sfmdataQuery i batch = [] := by
  induction batch with
  | nil => intro i; rfl
  | cons ms rest ih =>
    intro i
    rw [treeEvents, ih (i + 1)]
    simp [hd]

theorem fsRequests_off {σ : Type} (env : Env σ) (cfg : Config) (sfmdata sfmdataQuery : SfM_Data)
    (hd : withOutDirFlag env cfg = false) :
    fsRequests env cfg sfmdata sfmdataQuery = [] := by
  have hfl : (flagsOf env cfg).withOutDir = false := hd
  simp [fsRequests, outDirRequest, hfl, treeEvents_off env cfg _ _ _ hfl]

theorem main_zero {σ : Type} (env : Env σ) (cfg : Config)
    (hfeat : env.populateDatabase cfg.keylist = 0) :
    main env cfg =
      some ⟨EXIT_FAILURE, (buildPhase env cfg (flagsOf env cfg)).1, none, [], 0, none⟩ := by
  have h := buildPhase_zero env cfg (flagsOf env cfg) hfeat
  rcases hbp : buildPhase env cfg (flagsOf env cfg) with ⟨ev, k⟩
  rw [hbp] at h
  simp only at h
  subst h
  simp only [main, hbp]

theorem main_fail {σ : Type} (env : Env σ) (cfg : Config)
    (hfeat : env.populateDatabase cfg.keylist ≠ 0)
    (hscene : (sceneLoad env cfg (flagsOf env cfg)).2 = none) :
    main env cfg =
      some ⟨EXIT_FAILURE, loadEvents env cfg,
        if (flagsOf env cfg).withOutput then some [] else none, batchOf env cfg, 0, none⟩ := by
  have h := buildPhase_snd env cfg (flagsOf env cfg) hfeat
  rcases hbp : buildPhase env cfg (flagsOf env cfg) with ⟨ev, k⟩
  rw [hbp] at h
  simp only at h
  subst h
  simp only [main, loadEvents, batchOf, hbp, scenePhase_eq, hscene]

theorem main_calm {σ : Type} (env : Env σ) (cfg : Config) (sfmdata sfmdataQuery : SfM_Data)
    (hfeat : env.populateDatabase cfg.keylist ≠ 0)
    (hne : ∀ ms ∈ batchOf env cfg, ms ≠ [])
    (hscene : (sceneLoad env cfg (flagsOf env cfg)).2 = some (sfmdata, sfmdataQuery))
    (hquiet : quiet env (loadEvents env cfg) (fsRequests env cfg sfmdata sfmdataQuery) = true) :
    main env cfg =
      some ⟨if loopOk (flagsOf env cfg) sfmdata sfmdataQuery 0 (batchOf env cfg) then EXIT_SUCCESS
          else EXIT_FAILURE,
        loadEvents env cfg ++ fsRequests env cfg sfmdata sfmdataQuery,
        if (flagsOf env cfg).withOutput then
          some (reportText env cfg (flagsOf env cfg) sfmdata sfmdataQuery 0 (batchOf env cfg))
        else none,
        batchOf env cfg,
        wrongCount (flagsOf env cfg) sfmdata sfmdataQuery 0 (batchOf env cfg),
        if loopOk (flagsOf env cfg) sfmdata sfmdataQuery 0 (batchOf env cfg) then
          tallyMessage (flagsOf env cfg)
            (wrongCount (flagsOf env cfg) sfmdata sfmdataQuery 0 (batchOf env cfg))
        else none⟩ := by
  have h := buildPhase_snd env cfg (flagsOf env cfg) hfeat
  rcases hbp : buildPhase env cfg (flagsOf env cfg) with ⟨ev, k⟩
  rw [hbp] at h
  simp only at h
  subst h
  rw [fsRequests, quiet_append, Bool.and_eq_true] at hquiet
  obtain ⟨hq1, hq2⟩ := hquiet
  unfold batchOf at hne hq2
  simp only [loadEvents, hbp] at hq1 hq2
  simp only [main, loadEvents, fsRequests, batchOf, hbp, scenePhase_eq, hscene, hq1, if_true]
  rw [queryLoop_calm env cfg (flagsOf env cfg) sfmdata sfmdataQuery _ hne 0 _ hq2]
  by_cases hl : loopOk (flagsOf env cfg) sfmdata sfmdataQuery 0
      (queryPhase env cfg (resolveCount env cfg)).2 = true <;>
    simp [hl, List.append_assoc]

theorem main_thrown {σ : Type} (env : Env σ) (cfg : Config) (sfmdata sfmdataQuery : SfM_Data)
    (hfeat : env.populateDatabase cfg.keylist ≠ 0)
    (hne : ∀ ms ∈ batchOf env cfg, ms ≠ [])
    (hscene : (sceneLoad env cfg (flagsOf env cfg)).2 = some (sfmdata, sfmdataQuery))
    (hquiet : quiet env (loadEvents env cfg) (fsRequests env cfg sfmdata sfmdataQuery) = false) :
    ∃ text w, ((flagsOf env cfg).withQuery = true → w = 0) ∧
      main env cfg =
        some ⟨ABORTED,
          loadEvents env cfg ++
            issued env (loadEvents env cfg) (fsRequests env cfg sfmdata sfmdataQuery),
          if (flagsOf env cfg).withOutput then some text else none,
          batchOf env cfg, w, none⟩ := by
  have h := buildPhase_snd env cfg (flagsOf env cfg) hfeat
  rcases hbp : buildPhase env cfg (flagsOf env cfg) with ⟨ev, k⟩
  rw [hbp] at h
  simp only at h
  subst h
  rw [fsRequests] at hquiet ⊢
  cases hq1 : quiet env (loadEvents env cfg) (outDirRequest env cfg (flagsOf env cfg)) with
  | false =>
    refine ⟨[], 0, fun _ => rfl, ?_⟩
    rw [issued_append_loud env _ _ _ hq1]
    have hiss : issued env (loadEvents env cfg) (outDirRequest env cfg (flagsOf env cfg)) =
        outDirRequest env cfg (flagsOf env cfg) := by
      unfold outDirRequest at hq1 ⊢
      split
      · simp [issued]
      · rfl
    simp only [loadEvents, hbp] at hq1 hiss
    simp only [main, loadEvents, batchOf, hbp, scenePhase_eq, hscene, hq1, hiss,
      Bool.false_eq_true, if_false]
  | true =>
    rw [quiet_append, hq1, Bool.true_and] at hquiet
    rw [issued_append_quiet env _ _ _ hq1]
    unfold batchOf at hne hquiet
    simp only [loadEvents, hbp] at hq1 hquiet
    obtain ⟨text, w, hw, hloop⟩ := queryLoop_thrown env cfg (flagsOf env cfg) sfmdata
      sfmdataQuery _ hne 0
      ⟨ev ++ [(queryPhase env cfg (resolveCount env cfg)).1] ++
          (sceneLoad env cfg (flagsOf env cfg)).1 ++ outDirRequest env cfg (flagsOf env cfg),
        [], 0⟩ hquiet
    refine ⟨text, w, hw, ?_⟩
    simp only [main, loadEvents, batchOf, hbp, scenePhase_eq, hscene, hq1, if_true, hloop]
    simp [List.append_assoc]

/-! ## Closed forms of the report text -/

theorem unlines_cons (l : Str) (ls : List Str) :
    unlines (l :: ls) = l ++ '\n' :: unlines ls := by
  simp [unlines, List.flatMap_cons]

theorem unlines_append (xs ys : List Str) : unlines (xs ++ ys) = unlines xs ++ unlines ys := by
  simp [unlines, List.flatMap_append]

theorem matchText_plain {σ : Type} (env : Env σ) (cfg : Config) (fl : Flags)
    (sfmdata : SfM_Data) (i : Nat) (ms : Matches σ) (hw : fl.withOutput = true)
    (hm : cfg.matlabOutput = false) (hr : fl.withOutDir = false ∨ allResolve sfmdata ms = true) :
    matchText env cfg fl sfmdata i ms = unlines (ms.map (plainLine env.showScore i)) := by
  induction ms with
  | nil => rfl
  | cons m rest ih =>
    have hrest : fl.withOutDir = false ∨ allResolve sfmdata rest = true := by
      rcases hr with h | h
      · exact Or.inl h
      · rw [allResolve_cons] at h
        exact Or.inr (by simp_all)
    have hskip : (fl.withOutDir && (sfmdata.find m.id).isNone) = false := by
      rcases hr with h | h
      · simp [h]
      · rw [allResolve_cons] at h
        cases hf : sfmdata.find m.id <;> simp_all
    rw [matchText, hskip, ih hrest, List.map_cons, unlines_cons]
    simp [hw, hm]

theorem matchText_silent {σ : Type} (env : Env σ) (cfg : Config) (fl : Flags)
    (sfmdata : SfM_Data) (i : Nat) (ms : Matches σ)
    (h : (fl.withOutput && !cfg.matlabOutput) = false) :
    matchText env cfg fl sfmdata i ms = [] := by
  induction ms with
  | nil => rfl
  | cons m rest ih =>
    rw [matchText, ih, h]
    simp

theorem bodyOk_resolves {σ : Type} (fl : Flags) (sfmdata sfmdataQuery : SfM_Data) (i : Nat)
    (ms : Matches σ) (h : bodyOk fl sfmdata sfmdataQuery i ms = true) :
    (fl.withOutDir && (sfmdataQuery.find i).isNone) = false ∧
      (fl.withOutDir = false ∨ allResolve sfmdata ms = true) := by
  cases hd : fl.withOutDir
  · simp
  · cases hq : sfmdataQuery.find i <;> simp_all [bodyOk, bucketResolves]

theorem reportText_plain {σ : Type} (env : Env σ) (cfg : Config) (fl : Flags)
    (sfmdata sfmdataQuery : SfM_Data) (hw : fl.withOutput = true)
    (hm : cfg.matlabOutput = false) (batch : List (Matches σ)) :
    ∀ i, loopOk fl sfmdata sfmdataQuery i batch = true →
      reportText env cfg fl sfmdata sfmdataQuery i batch =
        unlines ((batch.enumFrom i).flatMap
          (fun p => cameraLine p.1 :: p.2.map (plainLine env.showScore p.1))) := by
  induction batch with
  | nil => intro i _; rfl
  | cons ms rest ih =>
    intro i hl
    rw [loopOk, Bool.and_eq_true] at hl
    obtain ⟨hskip, hres⟩ := bodyOk_resolves fl sfmdata sfmdataQuery i ms hl.1
    rw [reportText, hl.1, if_pos rfl, ih (i + 1) hl.2, bodyText, hskip, headerText,
      matchText_plain env cfg fl sfmdata i ms hw hm hres, List.enumFrom_cons,
      List.flatMap_cons, unlines_append, unlines_cons]
    simp [hw, hm]

theorem reportText_matlab {σ : Type} (env : Env σ) (cfg : Config) (fl : Flags)
    (sfmdata sfmdataQuery : SfM_Data) (hw : fl.withOutput = true)
    (hm : cfg.matlabOutput = true) (batch : List (Matches σ)) :
    ∀ i, loopOk fl sfmdata sfmdataQuery i batch = true →
      reportText env cfg fl sfmdata sfmdataQuery i batch =
        unlines ((batch.enumFrom i).map (fun p => matlabLine env.showScore p.1 p.2)) := by
  induction batch with
  | nil => intro i _; rfl
  | cons ms rest ih =>
    intro i hl
    rw [loopOk, Bool.and_eq_true] at hl
    rw [reportText, hl.1, if_pos rfl, ih (i + 1) hl.2, bodyText, headerText,
      matchText_silent env cfg fl sfmdata i ms (by simp [hm]), List.enumFrom_cons,
      List.map_cons, unlines_cons]
    simp [hw, hm]

/-! ## Facts on the events and on the count of wrong matches -/

theorem wrongCount_sanity {σ : Type} (fl : Flags) (sfmdata sfmdataQuery : SfM_Data)
    (hq : fl.withQuery = false) (batch : List (Matches σ)) :
    ∀ i, loopOk fl sfmdata sfmdataQuery i batch = true →
      wrongCount fl sfmdata sfmdataQuery i batch =
        (batch.enumFrom i).countP (fun p => isWrong p.1 p.2) := by
  induction batch with
  | nil => intro i _; rfl
  | cons ms rest ih =>
    intro i hl
    rw [loopOk, Bool.and_eq_true] at hl
    rw [wrongCount, hl.1, if_pos rfl, ih (i + 1) hl.2, List.enumFrom_cons, List.countP_cons]
    simp only [hq, Bool.not_false, Bool.true_and]
    omega

theorem wrongCount_query {σ : Type} (fl : Flags) (sfmdata sfmdataQuery : SfM_Data)
    (hq : fl.withQuery = true) (batch : List (Matches σ)) :
    ∀ i, wrongCount fl sfmdata sfmdataQuery i batch = 0 := by
  induction batch with
  | nil => intro i; rfl
  | cons ms rest ih =>
    intro i
    rw [wrongCount, ih (i + 1)]
    simp [hq]

theorem buildPhase_events {σ : Type} (env : Env σ) (cfg : Config) (fl : Flags) :
    (buildPhase env cfg fl).1.all (fun e => !isTreeEvent e) = true := by
  unfold buildPhase
  cases cfg.weightsName <;> cases cfg.documentMapFile <;> cases cfg.outfile <;>
    cases fl.withWeights <;> by_cases h : env.populateDatabase cfg.keylist = 0 <;>
    simp [h, isTreeEvent]

theorem buildPhase_no_query {σ : Type} (env : Env σ) (cfg : Config) (fl : Flags) :
    (buildPhase env cfg fl).1.filter isQueryCall = [] := by
  unfold buildPhase
  cases cfg.weightsName <;> cases cfg.documentMapFile <;> cases cfg.outfile <;>
    cases fl.withWeights <;> by_cases h : env.populateDatabase cfg.keylist = 0 <;>
    simp [h, isQueryCall]

theorem queryPhase_eq {σ : Type} (env : Env σ) (cfg : Config) (k : Nat) :
    queryPhase env cfg k =
      ((match cfg.queryList with
        | none => Event.sanityCheck k
        | some q => Event.queryDatabase q k),
       (match cfg.queryList with
        | none => env.sanityCheck k
        | some q => env.queryDatabase q k)) := by
  unfold queryPhase
  cases cfg.queryList <;> rfl

theorem queryPhase_event {σ : Type} (env : Env σ) (cfg : Config) (k : Nat) :
    isTreeEvent (queryPhase env cfg k).1 = false ∧
      isQueryCall (queryPhase env cfg k).1 = true := by
  rw [queryPhase_eq]
  cases cfg.queryList <;> exact ⟨rfl, rfl⟩

theorem sceneLoad_no_query {σ : Type} (env : Env σ) (cfg : Config) (fl : Flags) :
    (sceneLoad env cfg fl).1.filter isQueryCall = [] := by
  unfold sceneLoad
  cases fl.withOutDir <;> cases env.sfmLoad cfg.keylist <;> cases cfg.queryList <;>
    simp [isQueryCall]

theorem sceneLoad_keylist {σ : Type} (env : Env σ) (cfg : Config) (fl : Flags)
    (hd : fl.withOutDir = true) : Event.sfmLoad cfg.keylist ∈ (sceneLoad env cfg fl).1 := by
  unfold sceneLoad
  cases env.sfmLoad cfg.keylist <;> cases cfg.queryList <;> simp [hd]

theorem matchLinks_no_query {σ : Type} (env : Env σ) (sfmdata : SfM_Data) (dirname : Str)
    (ms : Matches σ) : ∀ j, (matchLinks env sfmdata dirname j ms).filter isQueryCall = [] := by
  induction ms with
  | nil => intro j; rfl
  | cons m rest ih =>
    intro j
    rw [matchLinks]
    cases sfmdata.find m.id with
    | none => rfl
    | some v => simp [matchLink, isQueryCall, ih]

theorem treeEvents_no_query {σ : Type} (env : Env σ) (cfg : Config) (fl : Flags)
    (sfmdata sfmdataQuery : SfM_Data) (batch : List (Matches σ)) :
    ∀ i, (treeEvents env cfg fl sfmdata sfmdataQuery i batch).filter isQueryCall = [] := by
  induction batch with
  | nil => intro i; rfl
  | cons ms rest ih =>
    intro i
    have hb : (bucketEvents env cfg sfmdata sfmdataQuery i ms).filter isQueryCall = [] := by
      unfold bucketEvents
      cases sfmdataQuery.find i with
      | none => rfl
      | some v => simp [queryLink, isQueryCall, matchLinks_no_query]
    rw [treeEvents, List.filter_append]
    cases fl.withOutDir <;> cases bodyOk fl sfmdata sfmdataQuery i ms <;> simp [hb, ih]

theorem fsRequests_no_query {σ : Type} (env : Env σ) (cfg : Config)
    (sfmdata sfmdataQuery : SfM_Data) :
    (fsRequests env cfg sfmdata sfmdataQuery).filter isQueryCall = [] := by
  unfold fsRequests outDirRequest
  rw [List.filter_append, treeEvents_no_query]
  split <;> simp [isQueryCall]

theorem issued_no_query {σ : Type} (env : Env σ) (hist es : List Event)
    (h : es.filter isQueryCall = []) : (issued env hist es).filter isQueryCall = [] := by
  rw [List.filter_eq_nil_iff] at h ⊢
  intro e he
  exact h e (mem_of_mem_issued env es hist e he)

theorem loadEvents_query {σ : Type} (env : Env σ) (cfg : Config) :
    (loadEvents env cfg).filter isQueryCall = [(queryPhase env cfg (resolveCount env cfg)).1] := by
  unfold loadEvents
  rw [List.filter_append, List.filter_append, buildPhase_no_query, sceneLoad_no_query]
  simp [(queryPhase_event env cfg (resolveCount env cfg)).2]

/-- What a run on a batch of non-empty match lists leaves behind, in the three ways it can
end. -/
theorem main_outcome {σ : Type} (env : Env σ) (cfg : Config)
    (hfeat : env.populateDatabase cfg.keylist ≠ 0)
    (hne : ∀ ms ∈ batchOf env cfg, ms ≠ []) :
    ∃ out, main env cfg = some out ∧ out.allMatches = batchOf env cfg ∧
      (∃ es, out.events = loadEvents env cfg ++ es ∧ es.filter isQueryCall = [] ∧
        (withOutDirFlag env cfg = false → es = [])) ∧
      (out.exitCode = EXIT_SUCCESS →
        ∃ sfmdata sfmdataQuery,
          loopOk (flagsOf env cfg) sfmdata sfmdataQuery 0 (batchOf env cfg) = true ∧
          out.report = (if (flagsOf env cfg).withOutput then
            some (reportText env cfg (flagsOf env cfg) sfmdata sfmdataQuery 0 (batchOf env cfg))
            else none) ∧
          out.wrong = wrongCount (flagsOf env cfg) sfmdata sfmdataQuery 0 (batchOf env cfg) ∧
          out.tally = tallyMessage (flagsOf env cfg)
            (wrongCount (flagsOf env cfg) sfmdata sfmdataQuery 0 (batchOf env cfg))) ∧
      (withOutDirFlag env cfg = false → out.exitCode = EXIT_SUCCESS) ∧
      ((flagsOf env cfg).withQuery = true → out.wrong = 0 ∧ out.tally = none) := by
  cases hsc : (sceneLoad env cfg (flagsOf env cfg)).2 with
  | none =>
    refine ⟨_, main_fail env cfg hfeat hsc, rfl, ⟨[], by simp, rfl, fun _ => rfl⟩,
      ?_, ?_, ?_⟩
    · intro h
      simp [EXIT_SUCCESS, EXIT_FAILURE] at h
    · intro hd
      rw [sceneLoad_off env cfg (flagsOf env cfg) hd] at hsc
      exact absurd hsc (by simp)
    · intro _
      exact ⟨rfl, rfl⟩
  | some pr =>
    obtain ⟨sfmdata, sfmdataQuery⟩ := pr
    cases hq : quiet env (loadEvents env cfg) (fsRequests env cfg sfmdata sfmdataQuery) with
    | true =>
      refine ⟨_, main_calm env cfg sfmdata sfmdataQuery hfeat hne hsc hq, rfl,
        ⟨_, rfl, fsRequests_no_query env cfg sfmdata sfmdataQuery,
          fsRequests_off env cfg sfmdata sfmdataQuery⟩, ?_, ?_, ?_⟩
      · intro h
        have hl : loopOk (flagsOf env cfg) sfmdata sfmdataQuery 0 (batchOf env cfg) = true := by
          by_contra hc
          simp [hc, EXIT_SUCCESS, EXIT_FAILURE] at h
        exact ⟨sfmdata, sfmdataQuery, hl, rfl, rfl, by simp [hl]⟩
      · intro hd
        have hl := loopOk_off (flagsOf env cfg) sfmdata sfmdataQuery hd (batchOf env cfg) 0
        simp [hl]
      · intro hwq
        simp only [wrongCount_query (flagsOf env cfg) sfmdata sfmdataQuery hwq, tallyMessage,
          hwq]
        simp
    | false =>
      obtain ⟨text, w, hw, hmain⟩ :=
        main_thrown env cfg sfmdata sfmdataQuery hfeat hne hsc hq
      refine ⟨_, hmain, rfl,
        ⟨_, rfl, issued_no_query env _ _ (fsRequests_no_query env cfg sfmdata sfmdataQuery),
          ?_⟩, ?_, ?_, ?_⟩
      · intro hd
        rw [fsRequests_off env cfg sfmdata sfmdataQuery hd] at hq
        simp [quiet] at hq
      · intro h
        simp [EXIT_SUCCESS, ABORTED] at h
      · intro hd
        rw [fsRequests_off env cfg sfmdata sfmdataQuery hd] at hq
        simp [quiet] at hq
      · intro hwq
        exact ⟨hw hwq, rfl⟩

/-! ## The report file -/

/-- C1, as stated, fails: the plain report of the sanity check on the demo corpus starts each
query with a line "Camera: i", so it is not made of the match lines only. -/
theorem plain_report_not_match_lines_only :
    (main demoEnv demoCfg).map Outcome.report =
        some (some "Camera: 0\n0 0 1\n0 1 0.25\nCamera: 1\n1 0 0.5\n1 1 0.5\n".toList) ∧
      (main demoEnv demoCfg).map Outcome.report ≠
        some (some (unlines (plainMatchLines demoEnv.showScore (batchOf demoEnv demoCfg)))) := by
  decide

/-- C1 (amended): with an output file and the matlab flag off, a run on a batch of non-empty
match lists returns; when it exits with success the report file holds exactly, for each query
index i in ascending order, the line "Camera: i" followed by one line "i id score" per match in
rank order; and it exits with success whenever the output directory is not honoured. -/
theorem plain_report_with_headers {σ : Type} (env : Env σ) (cfg : Config)
    (hout : cfg.outfile.isSome = true) (hmat : cfg.matlabOutput = false)
    (hfeat : env.populateDatabase cfg.keylist ≠ 0)
    (hne : ∀ ms ∈ batchOf env cfg, ms ≠ []) :
    ∃ out, main env cfg = some out ∧
      (out.exitCode = EXIT_SUCCESS →
        out.report = some (unlines (plainLines env.showScore (batchOf env cfg)))) ∧
      (withOutDirFlag env cfg = false → out.exitCode = EXIT_SUCCESS) := by
  obtain ⟨out, hmain, _, _, hsucc, hoff, _⟩ := main_outcome env cfg hfeat hne
  refine ⟨out, hmain, ?_, hoff⟩
  intro h
  obtain ⟨sfmdata, sfmdataQuery, hl, hrep, _, _⟩ := hsucc h
  have hw : (flagsOf env cfg).withOutput = true := hout
  rw [hrep]
  simp only [hw, if_true]
  rw [reportText_plain env cfg (flagsOf env cfg) sfmdata sfmdataQuery hw hmat _ 0 hl]
  rfl

/-- Witness of C1 (amended): the sanity check on the demo corpus. -/
theorem plain_report_with_headers_witness :
    ∃ out, main demoEnv demoCfg = some out ∧
      (out.exitCode = EXIT_SUCCESS →
        out.report = some (unlines (plainLines demoEnv.showScore (batchOf demoEnv demoCfg)))) ∧
      (withOutDirFlag demoEnv demoCfg = false → out.exitCode = EXIT_SUCCESS) :=
  plain_report_with_headers demoEnv demoCfg (by decide) (by decide) (by decide) (by decide)

/-- C2, as stated, fails: with the matlab flag on, an output directory and a scene description
that lacks the view of document 1, the run returns EXIT_FAILURE at the second match of query 0
and the report holds one line for the two queries of the batch. -/
theorem matlab_report_cut_short :
    (main demoShortEnv demoMatlabTreeCfg).map (fun out => (out.exitCode, out.report)) =
        some (EXIT_FAILURE, some "m\x7b1\x7d=[ 0, 1; 1, 0.25; ];\n".toList) ∧
      (batchOf demoShortEnv demoMatlabTreeCfg).length = 2 ∧
      (main demoShortEnv demoMatlabTreeCfg).map Outcome.report ≠
        some (some (unlines
          (matlabLines demoShortEnv.showScore (batchOf demoShortEnv demoMatlabTreeCfg)))) := by
  decide

/-- C2 (amended): with an output file and the matlab flag on, a run on a batch of non-empty
match lists returns; when it exits with success the report file holds exactly one line per
query, in query order, the line of query i being "m{i+1}=[ " followed by "id, score; " for each
match in rank order and then "];" (so no plain-mode line is written); and it exits with success
whenever the output directory is not honoured. -/
theorem matlab_report_lines {σ : Type} (env : Env σ) (cfg : Config)
    (hout : cfg.outfile.isSome = true) (hmat : cfg.matlabOutput = true)
    (hfeat : env.populateDatabase cfg.keylist ≠ 0)
    (hne : ∀ ms ∈ batchOf env cfg, ms ≠ []) :
    ∃ out, main env cfg = some out ∧
      (out.exitCode = EXIT_SUCCESS →
        out.report = some (unlines (matlabLines env.showScore (batchOf env cfg)))) ∧
      (withOutDirFlag env cfg = false → out.exitCode = EXIT_SUCCESS) := by
  obtain ⟨out, hmain, _, _, hsucc, hoff, _⟩ := main_outcome env cfg hfeat hne
  refine ⟨out, hmain, ?_, hoff⟩
  intro h
  obtain ⟨sfmdata, sfmdataQuery, hl, hrep, _, _⟩ := hsucc h
  have hw : (flagsOf env cfg).withOutput = true := hout
  rw [hrep]
  simp only [hw, if_true]
  rw [reportText_matlab env cfg (flagsOf env cfg) sfmdata sfmdataQuery hw hmat _ 0 hl]
  rfl

/-- Witness of C2 (amended): the sanity check on the demo corpus with the matlab flag on; its
report is the two lines shown. -/
theorem matlab_report_lines_witness :
    (∃ out, main demoEnv demoMatlabCfg = some out ∧
      (out.exitCode = EXIT_SUCCESS →
        out.report =
          some (unlines (matlabLines demoEnv.showScore (batchOf demoEnv demoMatlabCfg)))) ∧
      (withOutDirFlag demoEnv demoMatlabCfg = false → out.exitCode = EXIT_SUCCESS)) ∧
    (main demoEnv demoMatlabCfg).map Outcome.report =
      some (some "m\x7b1\x7d=[ 0, 1; 1, 0.25; ];\nm\x7b2\x7d=[ 0, 0.5; 1, 0.5; ];\n".toList) :=
  ⟨matlab_report_lines demoEnv demoMatlabCfg (by decide) (by decide) (by decide) (by decide),
    by decide⟩

/-! ## Decimal rendering -/

theorem toDigitsCore_acc (fuel : Nat) : ∀ (n : Nat) (acc : List Char),
    Nat.toDigitsCore 10 fuel n acc = Nat.toDigitsCore 10 fuel n [] ++ acc := by
  induction fuel with
  | zero => intro n acc; simp [Nat.toDigitsCore]
  | succ fuel ih =>
    intro n acc
    rw [Nat.toDigitsCore.eq_2, Nat.toDigitsCore.eq_2]
    by_cases h : n / 10 = 0
    · simp [h]
    · rw [if_neg h, if_neg h, ih (n / 10) ((n % 10).digitChar :: acc),
        ih (n / 10) [(n % 10).digitChar]]
      simp

theorem toDigitsCore_any_fuel (fuel : Nat) : ∀ (n : Nat) (acc : List Char) (fuel2 : Nat),
    n < fuel → n < fuel2 →
    Nat.toDigitsCore 10 fuel n acc = Nat.toDigitsCore 10 fuel2 n acc := by
  induction fuel with
  | zero => intro n acc fuel2 h; omega
  | succ fuel ih =>
    intro n acc fuel2 hn hn2
    cases fuel2 with
    | zero => omega
    | succ fuel2 =>
      rw [Nat.toDigitsCore.eq_2, Nat.toDigitsCore.eq_2]
      by_cases h : n / 10 = 0
      · simp [h]
      · rw [if_neg h, if_neg h]
        exact ih (n / 10) _ fuel2 (by omega) (by omega)

theorem toDigitsCore_fuel (fuel : Nat) (n : Nat) (hn : n < fuel) :
    Nat.toDigitsCore 10 fuel n [] =
      if n < 10 then [Nat.digitChar n]
      else Nat.toDigitsCore 10 (n / 10 + 1) (n / 10) [] ++ [Nat.digitChar (n % 10)] := by
  cases fuel with
  | zero => omega
  | succ fuel =>
    rw [Nat.toDigitsCore.eq_2]
    by_cases h : n < 10
    · have h0 : n / 10 = 0 := by omega
      have h1 : n % 10 = n := by omega
      simp [h, h0, h1]
    · have h0 : n / 10 ≠ 0 := by omega
      rw [if_neg h0, if_neg h, toDigitsCore_acc]
      congr 1
      exact toDigitsCore_any_fuel fuel (n / 10) [] _ (by omega) (Nat.lt_succ_self _)

/-- The decimal rendering, digit by digit. -/
theorem showNat_rec (n : Nat) :
    showNat n =
      if n < 10 then [Nat.digitChar n] else showNat (n / 10) ++ [Nat.digitChar (n % 10)] := by
  unfold showNat Nat.toDigits
  exact toDigitsCore_fuel (n + 1) n (Nat.lt_succ_self n)

theorem digitChar_isDigit (d : Nat) (h : d < 10) : (Nat.digitChar d).isDigit = true := by
  have key : ∀ k < 10, (Nat.digitChar k).isDigit = true := by decide
  exact key d h

theorem digitChar_value (d : Nat) (h : d < 10) : (Nat.digitChar d).toNat - 48 = d := by
  have key : ∀ k < 10, (Nat.digitChar k).toNat - 48 = k := by decide
  exact key d h

theorem showNat_ne_nil (n : Nat) : showNat n ≠ [] := by
  rw [showNat_rec]
  split <;> simp

theorem showNat_isDigit (n : Nat) : ∀ c ∈ showNat n, c.isDigit = true := by
  induction n using Nat.strong_induction_on with
  | _ n ih =>
    intro c hc
    rw [showNat_rec] at hc
    by_cases h : n < 10
    · simp only [h, if_true, List.mem_singleton] at hc
      subst hc
      exact digitChar_isDigit n h
    · simp only [h, if_false, List.mem_append, List.mem_singleton] at hc
      rcases hc with hc | hc
      · exact ih (n / 10) (by omega) c hc
      · subst hc
        exact digitChar_isDigit _ (Nat.mod_lt _ (by decide))

theorem showNat_value (n : Nat) :
    (showNat n).foldl (fun k c => 10 * k + (c.toNat - 48)) 0 = n := by
  induction n using Nat.strong_induction_on with
  | _ n ih =>
    rw [showNat_rec]
    by_cases h : n < 10
    · simp [h, digitChar_value n h]
    · simp only [h, if_false, List.foldl_append, List.foldl_cons, List.foldl_nil]
      rw [ih (n / 10) (by omega), digitChar_value _ (Nat.mod_lt _ (by decide))]
      omega

theorem readNat_showNat (n : Nat) : readNat (showNat n) = some n := by
  have h1 : (showNat n).isEmpty = false := by
    cases h : showNat n with
    | nil => exact absurd h (showNat_ne_nil n)
    | cons c cs => rfl
  have h2 : (showNat n).all Char.isDigit = true := List.all_eq_true.mpr (showNat_isDigit n)
  simp [readNat, h1, h2, showNat_value]

theorem not_mem_showNat (n : Nat) (c : Char) (hc : c.isDigit = false) : c ∉ showNat n := by
  intro h
  rw [showNat_isDigit n c h] at hc
  exact absurd hc (by decide)

/-! ## Splitting a text into lines and words -/

theorem splitOn_sep (x : Char) (a rest : Str) (h : x ∉ a) :
    (a ++ x :: rest).splitOn x = a :: rest.splitOn x := by
  unfold List.splitOn
  apply List.splitOnP_first
  · intro y hy hyx
    have : y = x := by simpa using hyx
    exact h (this ▸ hy)
  · simp

theorem splitOn_none (x : Char) (a : Str) (h : x ∉ a) : a.splitOn x = [a] := by
  unfold List.splitOn
  apply List.splitOnP_eq_single
  intro y hy hyx
  have : y = x := by simpa using hyx
  exact h (this ▸ hy)

theorem splitOn_unlines (ls : List Str) (h : ∀ l ∈ ls, '\n' ∉ l) :
    (unlines ls).splitOn '\n' = ls ++ [[]] := by
  induction ls with
  | nil => rfl
  | cons l ls ih =>
    rw [unlines_cons, splitOn_sep _ _ _ (h l (List.mem_cons_self _ _)),
      ih (fun x hx => h x (List.mem_cons_of_mem _ hx))]
    rfl

theorem decodeLines_append (f : Str → Option (List Triple)) (xs ys : List Str)
    (a b : List Triple) (ha : decodeLines f xs = some a) (hb : decodeLines f ys = some b) :
    decodeLines f (xs ++ ys) = some (a ++ b) := by
  induction xs generalizing a with
  | nil =>
    simp only [decodeLines, Option.some.injEq] at ha
    subst ha
    simpa using hb
  | cons x xs ih =>
    rw [decodeLines] at ha
    cases hx : f x with
    | none => simp [hx] at ha
    | some c =>
      cases hxs : decodeLines f xs with
      | none => simp [hx, hxs] at ha
      | some d =>
        simp only [hx, hxs, Option.some.injEq] at ha
        subst ha
        rw [List.cons_append, decodeLines, hx, ih d hxs]
        simp

theorem decodeLines_map {α : Type} (f : Str → Option (List Triple)) (r : α → Str)
    (g : α → List Triple) (xs : List α) (h : ∀ x ∈ xs, f (r x) = some (g x)) :
    decodeLines f (xs.map r) = some (xs.flatMap g) := by
  induction xs with
  | nil => rfl
  | cons x xs ih =>
    rw [List.map_cons, decodeLines, h x (List.mem_cons_self _ _),
      ih (fun y hy => h y (List.mem_cons_of_mem _ hy))]
    simp

/-! ## The plain report, read back -/

theorem decodePlainLine_camera (i : Nat) : decodePlainLine (cameraLine i) = some [] := by
  have hs : (cameraLine i).splitOn ' ' = ["Camera:".toList, showNat i] := by
    have h1 : cameraLine i = "Camera:".toList ++ ' ' :: showNat i := by
      simp [cameraLine]
    rw [h1, splitOn_sep _ _ _ (by decide), splitOn_none _ _ (not_mem_showNat i ' ' (by decide))]
  have hne : cameraLine i ≠ [] := by simp [cameraLine]
  simp only [decodePlainLine, hne, hs, if_false, if_true, readNat_showNat]
  rfl

theorem decodePlainLine_match {σ : Type} (showScore : σ → Str) (i : Nat) (m : Match σ)
    (h : ' ' ∉ showScore m.score) :
    decodePlainLine (plainLine showScore i m) = some [(i, m.id, showScore m.score)] := by
  have hs : (plainLine showScore i m).splitOn ' ' =
      [showNat i, showNat m.id, showScore m.score] := by
    have h1 : plainLine showScore i m =
        showNat i ++ ' ' :: (showNat m.id ++ ' ' :: showScore m.score) := by
      simp [plainLine]
    rw [h1, splitOn_sep _ _ _ (not_mem_showNat i ' ' (by decide)),
      splitOn_sep _ _ _ (not_mem_showNat m.id ' ' (by decide)), splitOn_none _ _ h]
  have hne : plainLine showScore i m ≠ [] := by
    have := showNat_ne_nil i
    simp [plainLine, this]
  simp only [decodePlainLine, hne, hs, if_false, readNat_showNat]

theorem decodeLines_plain {σ : Type} (showScore : σ → Str) (batch : List (Matches σ))
    (h : ∀ ms ∈ batch, ∀ m ∈ ms, ' ' ∉ showScore m.score) : ∀ i,
    decodeLines decodePlainLine ((batch.enumFrom i).flatMap
        (fun p => cameraLine p.1 :: p.2.map (plainLine showScore p.1))) =
      some ((batch.enumFrom i).flatMap
        (fun p => p.2.map (fun m => (p.1, m.id, showScore m.score)))) := by
  induction batch with
  | nil => intro i; rfl
  | cons ms rest ih =>
    intro i
    rw [List.enumFrom_cons, List.flatMap_cons, List.flatMap_cons]
    apply decodeLines_append
    · rw [decodeLines, decodePlainLine_camera,
        decodeLines_map decodePlainLine (plainLine showScore i)
          (fun m => [(i, m.id, showScore m.score)]) ms
          (fun m hm => decodePlainLine_match showScore i m
            (h ms (List.mem_cons_self _ _) m hm))]
      have hflat : ∀ xs : Matches σ,
          xs.flatMap (fun m => [(i, m.id, showScore m.score)]) =
            xs.map (fun m => (i, m.id, showScore m.score)) := by
        intro xs
        induction xs with
        | nil => rfl
        | cons x xs ihx => rw [List.flatMap_cons, ihx]; rfl
      simp [hflat]
    · exact ih (fun x hx => h x (List.mem_cons_of_mem _ hx)) (i + 1)

/-! ## The matlab report, read back -/

theorem splitOn_pairs {σ : Type} (showScore : σ → Str) (ms : Matches σ)
    (h : ∀ m ∈ ms, ' ' ∉ showScore m.score) :
    (ms.flatMap (fun m => showNat m.id ++ ", ".toList ++ showScore m.score ++ "; ".toList) ++
        "];".toList).splitOn ' ' = pairWords showScore ms ++ ["];".toList] := by
  induction ms with
  | nil =>
    have h0 : "];".toList.splitOn ' ' = ["];".toList] := by decide
    simpa [pairWords] using h0
  | cons m rest ih =>
    have h1 : (m :: rest).flatMap
          (fun m => showNat m.id ++ ", ".toList ++ showScore m.score ++ "; ".toList) ++
          "];".toList =
        (showNat m.id ++ [',']) ++ ' ' :: ((showScore m.score ++ [';']) ++ ' ' ::
          (rest.flatMap
            (fun m => showNat m.id ++ ", ".toList ++ showScore m.score ++ "; ".toList) ++
            "];".toList)) := by
      simp [List.flatMap_cons, List.append_assoc]
    have hid : ' ' ∉ showNat m.id ++ [','] := by
      have := not_mem_showNat m.id ' ' (by decide)
      simp [this]
    have hsc : ' ' ∉ showScore m.score ++ [';'] := by
      have := h m (List.mem_cons_self _ _)
      simp [this]
    rw [h1, splitOn_sep _ _ _ hid, splitOn_sep _ _ _ hsc,
      ih (fun x hx => h x (List.mem_cons_of_mem _ hx))]
    simp [pairWords, List.flatMap_cons]

theorem splitOn_matlabLine {σ : Type} (showScore : σ → Str) (i : Nat) (ms : Matches σ)
    (h : ∀ m ∈ ms, ' ' ∉ showScore m.score) :
    (matlabLine showScore i ms).splitOn ' ' =
      ('m' :: '\x7b' :: (showNat (i + 1) ++ "\x7d=[".toList)) ::
        (pairWords showScore ms ++ ["];".toList]) := by
  have h1 : matlabLine showScore i ms =
      ('m' :: '\x7b' :: (showNat (i + 1) ++ "\x7d=[".toList)) ++ ' ' ::
        (ms.flatMap (fun m => showNat m.id ++ ", ".toList ++ showScore m.score ++ "; ".toList) ++
          "];".toList) := by
    simp [matlabLine, List.append_assoc]
  have hhd : ' ' ∉ 'm' :: '\x7b' :: (showNat (i + 1) ++ "\x7d=[".toList) := by
    have := not_mem_showNat (i + 1) ' ' (by decide)
    simp [this]
  rw [h1, splitOn_sep _ _ _ hhd, splitOn_pairs showScore ms h]

theorem readCell_word (k : Nat) :
    readCell ('m' :: '\x7b' :: (showNat k ++ "\x7d=[".toList)) = some k := by
  have hs : (showNat k ++ "\x7d=[".toList).splitOn '\x7d' = [showNat k, "=[".toList] := by
    have h1 : showNat k ++ "\x7d=[".toList = showNat k ++ '\x7d' :: "=[".toList := by simp
    rw [h1, splitOn_sep _ _ _ (not_mem_showNat k '\x7d' (by decide)),
      splitOn_none _ _ (by decide)]
  simp only [readCell, hs, if_true, readNat_showNat]

theorem decodePairs_words {σ : Type} (showScore : σ → Str) (ms : Matches σ) :
    decodePairs (pairWords showScore ms ++ ["];".toList]) =
      some (ms.map (fun m => (m.id, showScore m.score))) := by
  induction ms with
  | nil =>
    have h0 : decodePairs ["];".toList] = some ([] : List (Nat × Str)) := by decide
    simpa [pairWords] using h0
  | cons m rest ih =>
    have h1 : pairWords showScore (m :: rest) ++ ["];".toList] =
        (showNat m.id ++ [',']) :: (showScore m.score ++ [';']) ::
          (pairWords showScore rest ++ ["];".toList]) := by
      simp [pairWords, List.flatMap_cons]
    rw [h1, decodePairs, List.getLast?_concat, List.getLast?_concat, List.dropLast_concat,
      List.dropLast_concat, readNat_showNat, ih]
    simp

theorem decodeMatlabLine_line {σ : Type} (showScore : σ → Str) (i : Nat) (ms : Matches σ)
    (h : ∀ m ∈ ms, ' ' ∉ showScore m.score) :
    decodeMatlabLine (matlabLine showScore i ms) =
      some (ms.map (fun m => (i, m.id, showScore m.score))) := by
  have hne : matlabLine showScore i ms ≠ [] := by simp [matlabLine]
  simp only [decodeMatlabLine, hne, if_false, splitOn_matlabLine showScore i ms h,
    readCell_word, decodePairs_words, List.map_map]
  rfl

theorem not_mem_plainLine {σ : Type} (showScore : σ → Str) (i : Nat) (m : Match σ)
    (h : '\n' ∉ showScore m.score) : '\n' ∉ plainLine showScore i m := by
  have h1 := not_mem_showNat i '\n' (by decide)
  have h2 := not_mem_showNat m.id '\n' (by decide)
  simp [plainLine, h, h1, h2]

theorem not_mem_matlabLine {σ : Type} (showScore : σ → Str) (i : Nat) (ms : Matches σ)
    (h : ∀ m ∈ ms, '\n' ∉ showScore m.score) : '\n' ∉ matlabLine showScore i ms := by
  have h1 := not_mem_showNat (i + 1) '\n' (by decide)
  have h2 : ∀ m : Match σ, '\n' ∉ showNat m.id :=
    fun m => not_mem_showNat m.id '\n' (by decide)
  simp only [matlabLine, List.mem_append, List.mem_flatMap, not_or, not_exists, not_and]
  refine ⟨⟨⟨⟨by decide, h1⟩, by decide⟩, ?_⟩, by decide⟩
  intro m hm
  exact ⟨⟨⟨h2 m, by decide⟩, h m hm⟩, by decide⟩

/-- The plain report with headers decodes to the triples of the batch. -/
theorem decodePlain_plainLines {σ : Type} (showScore : σ → Str) (batch : List (Matches σ))
    (h : ∀ ms ∈ batch, ∀ m ∈ ms, ' ' ∉ showScore m.score ∧ '\n' ∉ showScore m.score) :
    decodePlain (unlines (plainLines showScore batch)) = some (triples showScore batch) := by
  have hnl : ∀ l ∈ plainLines showScore batch, '\n' ∉ l := by
    intro l hl
    simp only [plainLines, List.mem_flatMap, List.mem_cons, List.mem_map] at hl
    obtain ⟨p, hp, hl⟩ := hl
    rcases hl with hl | ⟨m, hm, hl⟩
    · subst hl
      have := not_mem_showNat p.1 '\n' (by decide)
      simp [cameraLine, this]
    · subst hl
      have hmem : p.2 ∈ batch := List.snd_mem_of_mem_enum hp
      exact not_mem_plainLine showScore p.1 m (h p.2 hmem m hm).2
  rw [decodePlain, splitOn_unlines _ hnl]
  have := decodeLines_append decodePlainLine (plainLines showScore batch) [[]] _ []
    (decodeLines_plain showScore batch (fun ms hms m hm => (h ms hms m hm).1) 0) (by decide)
  rw [this, List.append_nil]
  rfl

/-- The matlab report decodes to the triples of the batch. -/
theorem decodeMatlab_matlabLines {σ : Type} (showScore : σ → Str) (batch : List (Matches σ))
    (h : ∀ ms ∈ batch, ∀ m ∈ ms, ' ' ∉ showScore m.score ∧ '\n' ∉ showScore m.score) :
    decodeMatlab (unlines (matlabLines showScore batch)) = some (triples showScore batch) := by
  have hmem : ∀ p ∈ batch.enum, p.2 ∈ batch := fun p hp => List.snd_mem_of_mem_enum hp
  have hnl : ∀ l ∈ matlabLines showScore batch, '\n' ∉ l := by
    intro l hl
    simp only [matlabLines, List.mem_map] at hl
    obtain ⟨p, hp, hl⟩ := hl
    subst hl
    exact not_mem_matlabLine showScore p.1 p.2 (fun m hm => (h p.2 (hmem p hp) m hm).2)
  rw [decodeMatlab, splitOn_unlines _ hnl]
  have hdec := decodeLines_map decodeMatlabLine
    (fun p : Nat × Matches σ => matlabLine showScore p.1 p.2)
    (fun p => p.2.map (fun m => (p.1, m.id, showScore m.score))) batch.enum
    (fun p hp => decodeMatlabLine_line showScore p.1 p.2
      (fun m hm => (h p.2 (hmem p hp) m hm).1))
  have := decodeLines_append decodeMatlabLine (matlabLines showScore batch) [[]] _ []
    hdec (by decide)
  rw [this, List.append_nil]
  rfl

/-! ## Runs that exit with success -/

theorem main_success_inv {σ : Type} (env : Env σ) (cfg : Config)
    (hfeat : env.populateDatabase cfg.keylist ≠ 0)
    (hne : ∀ ms ∈ batchOf env cfg, ms ≠ [])
    (hexit : (main env cfg).map Outcome.exitCode = some EXIT_SUCCESS) :
    ∃ sfmdata sfmdataQuery,
      (sceneLoad env cfg (flagsOf env cfg)).2 = some (sfmdata, sfmdataQuery) ∧
      quiet env (loadEvents env cfg) (fsRequests env cfg sfmdata sfmdataQuery) = true ∧
      loopOk (flagsOf env cfg) sfmdata sfmdataQuery 0 (batchOf env cfg) = true := by
  cases hsc : (sceneLoad env cfg (flagsOf env cfg)).2 with
  | none =>
    rw [main_fail env cfg hfeat hsc] at hexit
    simp [EXIT_SUCCESS, EXIT_FAILURE] at hexit
  | some pr =>
    obtain ⟨sfmdata, sfmdataQuery⟩ := pr
    cases hq : quiet env (loadEvents env cfg) (fsRequests env cfg sfmdata sfmdataQuery) with
    | false =>
      obtain ⟨text, w, _, hmain⟩ := main_thrown env cfg sfmdata sfmdataQuery hfeat hne hsc hq
      rw [hmain] at hexit
      simp [EXIT_SUCCESS, ABORTED] at hexit
    | true =>
      refine ⟨sfmdata, sfmdataQuery, rfl, hq, ?_⟩
      rw [main_calm env cfg sfmdata sfmdataQuery hfeat hne hsc hq] at hexit
      by_contra hc
      simp [hc, EXIT_SUCCESS, EXIT_FAILURE] at hexit

theorem treeEvents_matlab {σ : Type} (env : Env σ) (cfg : Config) (b : Bool) (fl : Flags)
    (sfmdata sfmdataQuery : SfM_Data) (batch : List (Matches σ)) : ∀ i,
    treeEvents env { cfg with matlabOutput := b } fl sfmdata sfmdataQuery i batch =
      treeEvents env cfg fl sfmdata sfmdataQuery i batch := by
  induction batch with
  | nil => intro i; rfl
  | cons ms rest ih =>
    intro i
    rw [treeEvents, treeEvents, ih (i + 1)]
    rfl

/-- C3, as stated, fails: with an output directory and a scene description that lacks the
view of document 0, both runs return EXIT_FAILURE at query 0; the plain report then encodes no
triple, the matlab report the two triples of query 0, and the batch has four. -/
theorem reports_differ_when_cut_short :
    ((main demoLateEnv demoTreeCfg).bind Outcome.report).bind decodePlain = some [] ∧
      ((main demoLateEnv demoMatlabTreeCfg).bind Outcome.report).bind decodeMatlab =
        some [(0, 0, "1".toList), (0, 1, "0.25".toList)] ∧
      triples demoLateEnv.showScore (batchOf demoLateEnv demoTreeCfg) =
        [(0, 0, "1".toList), (0, 1, "0.25".toList), (1, 0, "0.5".toList),
          (1, 1, "0.5".toList)] := by
  decide

/-- C3 (amended): for a run with an output file that exits with success on a batch of
non-empty match lists whose printed scores hold no blank and no end of line, the plain report
and the matlab report of the same run both decode to the triples of the batch, queries
ascending and matches in rank order, the 1-based cell index of the matlab report being read
back as a 0-based query index. -/
theorem report_round_trip {σ : Type} (env : Env σ) (cfgPlain cfgMatlab : Config)
    (hcfg : cfgMatlab = { cfgPlain with matlabOutput := true })
    (hplain : cfgPlain.matlabOutput = false)
    (hout : cfgPlain.outfile.isSome = true)
    (hfeat : env.populateDatabase cfgPlain.keylist ≠ 0)
    (hne : ∀ ms ∈ batchOf env cfgPlain, ms ≠ [])
    (hscore : ∀ ms ∈ batchOf env cfgPlain, ∀ m ∈ ms,
      ' ' ∉ env.showScore m.score ∧ '\n' ∉ env.showScore m.score)
    (hexit : (main env cfgPlain).map Outcome.exitCode = some EXIT_SUCCESS) :
    ∃ plain matlab,
      (main env cfgPlain).map Outcome.report = some (some plain) ∧
      (main env cfgMatlab).map Outcome.report = some (some matlab) ∧
      decodePlain plain = some (triples env.showScore (batchOf env cfgPlain)) ∧
      decodeMatlab matlab = some (triples env.showScore (batchOf env cfgPlain)) := by
  obtain ⟨sfmdata, sfmdataQuery, hsc, hq, hl⟩ :=
    main_success_inv env cfgPlain hfeat hne hexit
  have hw : (flagsOf env cfgPlain).withOutput = true := hout
  have hfeatM : env.populateDatabase cfgMatlab.keylist ≠ 0 := by subst hcfg; exact hfeat
  have hneM : ∀ ms ∈ batchOf env cfgMatlab, ms ≠ [] := by subst hcfg; exact hne
  have hscM : (sceneLoad env cfgMatlab (flagsOf env cfgMatlab)).2 =
      some (sfmdata, sfmdataQuery) := by subst hcfg; exact hsc
  have hlM : loopOk (flagsOf env cfgMatlab) sfmdata sfmdataQuery 0 (batchOf env cfgMatlab) =
      true := by subst hcfg; exact hl
  have hwM : (flagsOf env cfgMatlab).withOutput = true := by subst hcfg; exact hout
  have hmM : cfgMatlab.matlabOutput = true := by subst hcfg; rfl
  have hbM : batchOf env cfgMatlab = batchOf env cfgPlain := by subst hcfg; rfl
  have hqM : quiet env (loadEvents env cfgMatlab)
      (fsRequests env cfgMatlab sfmdata sfmdataQuery) = true := by
    subst hcfg
    have hreq : fsRequests env { cfgPlain with matlabOutput := true } sfmdata sfmdataQuery =
        fsRequests env cfgPlain sfmdata sfmdataQuery := by
      unfold fsRequests
      rw [show batchOf env { cfgPlain with matlabOutput := true } = batchOf env cfgPlain from rfl,
        show flagsOf env { cfgPlain with matlabOutput := true } = flagsOf env cfgPlain from rfl,
        treeEvents_matlab]
      rfl
    rw [hreq]
    exact hq
  refine ⟨unlines (plainLines env.showScore (batchOf env cfgPlain)),
    unlines (matlabLines env.showScore (batchOf env cfgPlain)), ?_, ?_,
    decodePlain_plainLines env.showScore _ hscore,
    decodeMatlab_matlabLines env.showScore _ hscore⟩
  · rw [main_calm env cfgPlain sfmdata sfmdataQuery hfeat hne hsc hq]
    simp only [Option.map_some', hw, if_true]
    rw [reportText_plain env cfgPlain _ sfmdata sfmdataQuery hw hplain _ 0 hl]
    rfl
  · rw [main_calm env cfgMatlab sfmdata sfmdataQuery hfeatM hneM hscM hqM]
    simp only [Option.map_some', hwM, if_true]
    rw [reportText_matlab env cfgMatlab _ sfmdata sfmdataQuery hwM hmM _ 0 hlM, hbM]
    rfl

/-- Witness of C3 (amended): the two reports of the sanity check on the demo corpus. -/
theorem report_round_trip_witness :
    ∃ plain matlab,
      (main demoEnv demoCfg).map Outcome.report = some (some plain) ∧
      (main demoEnv demoMatlabCfg).map Outcome.report = some (some matlab) ∧
      decodePlain plain = some (triples demoEnv.showScore (batchOf demoEnv demoCfg)) ∧
      decodeMatlab matlab = some (triples demoEnv.showScore (batchOf demoEnv demoCfg)) :=
  report_round_trip demoEnv demoCfg demoMatlabCfg rfl (by decide) (by decide) (by decide)
    (by decide) (by decide) (by decide)

/-! ## Link names and rank order -/

theorem showNat_one_digit (n : Nat) (h : n < 10) : showNat n = [Nat.digitChar n] := by
  rw [showNat_rec, if_pos h]

theorem showNat_two_digits (n : Nat) (h1 : 10 ≤ n) (h2 : n < 100) :
    showNat n = [Nat.digitChar (n / 10), Nat.digitChar (n % 10)] := by
  rw [showNat_rec, if_neg (by omega), showNat_one_digit (n / 10) (by omega)]
  rfl

theorem showNat_three_digits (n : Nat) (h1 : 100 ≤ n) (h2 : n < 1000) :
    showNat n =
      [Nat.digitChar (n / 100), Nat.digitChar (n / 10 % 10), Nat.digitChar (n % 10)] := by
  rw [showNat_rec, if_neg (by omega), showNat_two_digits (n / 10) (by omega) (by omega)]
  have : n / 10 / 10 = n / 100 := by omega
  rw [this]
  rfl

theorem showNat_four_digits (n : Nat) (h1 : 1000 ≤ n) (h2 : n < 10000) :
    showNat n =
      [Nat.digitChar (n / 1000), Nat.digitChar (n / 100 % 10), Nat.digitChar (n / 10 % 10),
        Nat.digitChar (n % 10)] := by
  rw [showNat_rec, if_neg (by omega), showNat_three_digits (n / 10) (by omega) (by omega)]
  have e1 : n / 10 / 100 = n / 1000 := by omega
  have e2 : n / 10 / 10 % 10 = n / 100 % 10 := by omega
  rw [e1, e2]
  rfl

/-- Below 10000 the padded rendering is the four decimal digits. -/
theorem myToString_four (j : Nat) (h : j < 10000) :
    myToString j 4 =
      [Nat.digitChar (j / 1000), Nat.digitChar (j / 100 % 10), Nat.digitChar (j / 10 % 10),
        Nat.digitChar (j % 10)] := by
  unfold myToString
  by_cases h1 : j < 10
  · have e1 : j / 1000 = 0 := by omega
    have e2 : j / 100 % 10 = 0 := by omega
    have e3 : j / 10 % 10 = 0 := by omega
    have e4 : j % 10 = j := by omega
    rw [showNat_one_digit j h1, e1, e2, e3, e4]
    rfl
  · by_cases h2 : j < 100
    · have e1 : j / 1000 = 0 := by omega
      have e2 : j / 100 % 10 = 0 := by omega
      have e3 : j / 10 % 10 = j / 10 := by omega
      rw [showNat_two_digits j (by omega) h2, e1, e2, e3]
      rfl
    · by_cases h3 : j < 1000
      · have e1 : j / 1000 = 0 := by omega
        have e2 : j / 100 % 10 = j / 100 := by omega
        rw [showNat_three_digits j (by omega) h3, e1, e2]
        rfl
      · rw [showNat_four_digits j (by omega) h]
        rfl

theorem digitChar_lt (a b : Nat) (hb : b < 10) (h : a < b) :
    Nat.digitChar a < Nat.digitChar b := by
  have key : ∀ a < 10, ∀ b < 10, a < b → Nat.digitChar a < Nat.digitChar b := by decide
  exact key a (by omega) b hb h

/-- Four-digit renderings followed by anything are ordered as the numbers are. -/
theorem lex_of_lt (j k : Nat) (hjk : j < k) (hk : k < 10000) (s t : Str) :
    List.Lex (fun a b : Char => a < b) (myToString j 4 ++ s) (myToString k 4 ++ t) := by
  rw [myToString_four j (by omega), myToString_four k hk]
  simp only [List.cons_append, List.nil_append]
  have hk3 : k / 1000 < 10 := by omega
  have hk2 : k / 100 % 10 < 10 := Nat.mod_lt _ (by decide)
  have hk1 : k / 10 % 10 < 10 := Nat.mod_lt _ (by decide)
  have hk0 : k % 10 < 10 := Nat.mod_lt _ (by decide)
  by_cases c3 : j / 1000 < k / 1000
  · exact List.Lex.rel (digitChar_lt _ _ hk3 c3)
  · have e3 : j / 1000 = k / 1000 := by omega
    rw [e3]
    apply List.Lex.cons
    by_cases c2 : j / 100 % 10 < k / 100 % 10
    · exact List.Lex.rel (digitChar_lt _ _ hk2 c2)
    · have e2 : j / 100 % 10 = k / 100 % 10 := by omega
      rw [e2]
      apply List.Lex.cons
      by_cases c1 : j / 10 % 10 < k / 10 % 10
      · exact List.Lex.rel (digitChar_lt _ _ hk1 c1)
      · have e1 : j / 10 % 10 = k / 10 % 10 := by omega
        rw [e1]
        apply List.Lex.cons
        have c0 : j % 10 < k % 10 := by omega
        exact List.Lex.rel (digitChar_lt _ _ hk0 c0)

/-- C5: in a match list of at most 10000 matches, for ranks j < k the rendering of j on 4
digits has exactly 4 characters, and the link name of rank j comes strictly before the link
name of rank k in lexicographic order, whatever the image file names are; so the link names
listed by rank are strictly increasing, and sorting them by name gives back the rank order. -/
theorem link_names_follow_rank {σ : Type} (ms : Matches σ) (hlen : ms.length ≤ 10000)
    (file : Nat → Str) :
    (∀ j k, j < k → k < ms.length →
      (myToString j 4).length = 4 ∧
        List.Lex (fun a b : Char => a < b)
          (myToString j 4 ++ ".".toList ++ file j) (myToString k 4 ++ ".".toList ++ file k)) ∧
    List.Pairwise (List.Lex (fun a b : Char => a < b))
      ((List.range ms.length).map (fun j => myToString j 4 ++ ".".toList ++ file j)) := by
  have hlex : ∀ j k, j < k → k < ms.length →
      List.Lex (fun a b : Char => a < b)
        (myToString j 4 ++ ".".toList ++ file j) (myToString k 4 ++ ".".toList ++ file k) := by
    intro j k hjk hk
    rw [List.append_assoc, List.append_assoc]
    exact lex_of_lt j k hjk (by omega) _ _
  refine ⟨?_, ?_⟩
  · intro j k hjk hk
    refine ⟨?_, hlex j k hjk hk⟩
    rw [myToString_four j (by omega)]
    rfl
  · rw [List.pairwise_map]
    refine (List.pairwise_lt_range ms.length).imp_of_mem ?_
    intro j k _ hk hjk
    exact hlex j k hjk (List.mem_range.mp hk)

/-- Witness of C5: twelve matches whose image file names run against the rank order; ranks
9 and 10 are named "0009.c.jpg" and "0010.b.jpg". -/
theorem link_names_follow_rank_witness :
    ((∀ j k, j < k → k < (List.replicate 12 (⟨0, ()⟩ : Match Unit)).length →
      (myToString j 4).length = 4 ∧
        List.Lex (fun a b : Char => a < b)
          (myToString j 4 ++ ".".toList ++ [Char.ofNat (108 - j), '.', 'j', 'p', 'g'])
          (myToString k 4 ++ ".".toList ++ [Char.ofNat (108 - k), '.', 'j', 'p', 'g'])) ∧
    List.Pairwise (List.Lex (fun a b : Char => a < b))
      ((List.range (List.replicate 12 (⟨0, ()⟩ : Match Unit)).length).map
        (fun j => myToString j 4 ++ ".".toList ++ [Char.ofNat (108 - j), '.', 'j', 'p', 'g']))) ∧
    myToString 9 4 ++ ".".toList ++ [Char.ofNat (108 - 9), '.', 'j', 'p', 'g'] =
      "0009.c.jpg".toList ∧
    myToString 10 4 ++ ".".toList ++ [Char.ofNat (108 - 10), '.', 'j', 'p', 'g'] =
      "0010.b.jpg".toList :=
  ⟨link_names_follow_rank (List.replicate 12 (⟨0, ()⟩ : Match Unit)) (by decide)
    (fun j => [Char.ofNat (108 - j), '.', 'j', 'p', 'g']), by decide, by decide⟩

/-! ## The symlink tree -/

theorem matchLinks_of_views {σ : Type} (env : Env σ) (sfmdata : SfM_Data) (dirname : Str)
    (ms : Matches σ) : ∀ (vs : List View) (j : Nat),
    ms.map (fun m => sfmdata.find m.id) = vs.map some →
    matchLinks env sfmdata dirname j ms =
        (vs.enumFrom j).map (fun p => matchLink env sfmdata dirname p.1 p.2) ∧
      allResolve sfmdata ms = true := by
  induction ms with
  | nil =>
    intro vs j h
    cases vs with
    | nil => exact ⟨rfl, rfl⟩
    | cons v vs => simp at h
  | cons m rest ih =>
    intro vs j h
    cases vs with
    | nil => simp at h
    | cons v vs =>
      simp only [List.map_cons, List.cons.injEq] at h
      obtain ⟨h1, h2⟩ := ih vs (j + 1) h.2
      refine ⟨?_, ?_⟩
      · rw [matchLinks, h.1]
        simp only [List.enumFrom_cons, List.map_cons, h1]
      · rw [allResolve_cons, h.1, h2]
        rfl

/-- C4, as stated, fails: in the bucket of query 0 of the demo run with an output directory,
a link to the query image itself is created before the two links named by rank. -/
theorem bucket_holds_query_link :
    (main demoEnv demoTreeCfg).map (fun out => createdIn "out/a.jpg".toList out.events) =
        some [Event.createSymlink "/data/a.jpg".toList "out/a.jpg/a.jpg".toList,
          Event.createSymlink "/data/img/a.jpg".toList "out/a.jpg/0000.a.jpg".toList,
          Event.createSymlink "/data/img/b.jpg".toList "out/a.jpg/0001.b.jpg".toList] ∧
      (main demoEnv demoTreeCfg).map (fun out => createdIn "out/a.jpg".toList out.events) ≠
        some (rankLinks demoEnv demoScene "out/a.jpg".toList
          [⟨"img/a.jpg".toList⟩, ⟨"img/b.jpg".toList⟩]) := by
  decide

/-- C4 (amended): in symlink-tree mode, the pass of the query loop for a query i that has a
view and whose n matches all have a view requests, in this order, the bucket directory named
after the file name of the query image, a link named by that file name to the query root path
joined with it, and for each rank j the link named by j on 4 digits, a dot and the file name
of the j-th matched image, to the corpus root path joined with the path of that image. When
none of these requests fails the pass runs to its end and nothing else is requested; when one
fails the run is aborted at the first failing request and the later ones are not issued. -/
theorem bucket_links {σ : Type} (env : Env σ) (cfg : Config) (fl : Flags)
    (sfmdata sfmdataQuery : SfM_Data) (i : Nat) (ms : Matches σ) (st : State)
    (outDir : Str) (v : View) (vs : List View) (reqs : List Event)
    (hdir : fl.withOutDir = true) (hout : cfg.outDir = some outDir) (hne : ms ≠ [])
    (hq : sfmdataQuery.find i = some v)
    (hms : ms.map (fun m => sfmdata.find m.id) = vs.map some)
    (hreqs : reqs =
      Event.createDirectories (env.join outDir (env.filename v.s_Img_path)) ::
        Event.createSymlink (env.join sfmdataQuery.s_root_path (env.filename v.s_Img_path))
          (env.join (env.join outDir (env.filename v.s_Img_path))
            (env.filename v.s_Img_path)) ::
        vs.enum.map (fun p =>
          Event.createSymlink (env.join sfmdata.s_root_path p.2.s_Img_path)
            (env.join (env.join outDir (env.filename v.s_Img_path))
              (myToString p.1 4 ++ ".".toList ++ env.filename p.2.s_Img_path)))) :
    vs.length = ms.length ∧
      if quiet env st.events reqs = true then
        ∃ st', queryBody env cfg fl sfmdata sfmdataQuery i ms st = Flow.next st' ∧
          st'.events = st.events ++ reqs
      else
        ∃ st', queryBody env cfg fl sfmdata sfmdataQuery i ms st = Flow.abort st' ∧
          st'.events = st.events ++ issued env st.events reqs := by
  obtain ⟨hlinks, hres⟩ := matchLinks_of_views env sfmdata
    (env.join outDir (env.filename v.s_Img_path)) ms vs 0 hms
  have hok : bucketResolves sfmdata sfmdataQuery i ms = true := by
    simp [bucketResolves, hq, hres]
  have hlen : vs.length = ms.length := by
    have := congrArg List.length hms
    simpa using this.symm
  have hbe : bucketEvents env cfg sfmdata sfmdataQuery i ms = reqs := by
    rw [hreqs]
    simp only [bucketEvents, hq, hout, Option.getD_some, hlinks, queryLink, List.enum]
    simp [matchLink]
  refine ⟨hlen, ?_⟩
  by_cases hquiet : quiet env st.events reqs = true
  · rw [if_pos hquiet]
    rw [← hbe] at hquiet ⊢
    rw [queryBody_quiet env cfg fl sfmdata sfmdataQuery i ms st hne hdir hquiet, hok]
    exact ⟨_, rfl, rfl⟩
  · rw [if_neg hquiet]
    have hloud : quiet env st.events reqs = false := by simpa using hquiet
    rw [← hbe] at hloud ⊢
    obtain ⟨text, ht⟩ := queryBody_loud env cfg fl sfmdata sfmdataQuery i ms st hne hdir hloud
    exact ⟨_, ht, rfl⟩

/-- Witness of C4 (amended): query 0 of the demo run with an output directory. -/
theorem bucket_links_witness :
    [(⟨"img/a.jpg".toList⟩ : View), ⟨"img/b.jpg".toList⟩].length =
        [(⟨0, "1".toList⟩ : Match Str), ⟨1, "0.25".toList⟩].length ∧
      if quiet demoEnv (⟨[], [], 0⟩ : State).events
          [Event.createDirectories "out/a.jpg".toList,
            Event.createSymlink "/data/a.jpg".toList "out/a.jpg/a.jpg".toList,
            Event.createSymlink "/data/img/a.jpg".toList "out/a.jpg/0000.a.jpg".toList,
            Event.createSymlink "/data/img/b.jpg".toList "out/a.jpg/0001.b.jpg".toList] = true
      then
        ∃ st', queryBody demoEnv demoTreeCfg (flagsOf demoEnv demoTreeCfg) demoScene demoScene 0
            [⟨0, "1".toList⟩, ⟨1, "0.25".toList⟩] ⟨[], [], 0⟩ = Flow.next st' ∧
          st'.events = (⟨[], [], 0⟩ : State).events ++
            [Event.createDirectories "out/a.jpg".toList,
              Event.createSymlink "/data/a.jpg".toList "out/a.jpg/a.jpg".toList,
              Event.createSymlink "/data/img/a.jpg".toList "out/a.jpg/0000.a.jpg".toList,
              Event.createSymlink "/data/img/b.jpg".toList "out/a.jpg/0001.b.jpg".toList]
      else
        ∃ st', queryBody demoEnv demoTreeCfg (flagsOf demoEnv demoTreeCfg) demoScene demoScene 0
            [⟨0, "1".toList⟩, ⟨1, "0.25".toList⟩] ⟨[], [], 0⟩ = Flow.abort st' ∧
          st'.events = (⟨[], [], 0⟩ : State).events ++
            issued demoEnv (⟨[], [], 0⟩ : State).events
              [Event.createDirectories "out/a.jpg".toList,
                Event.createSymlink "/data/a.jpg".toList "out/a.jpg/a.jpg".toList,
                Event.createSymlink "/data/img/a.jpg".toList "out/a.jpg/0000.a.jpg".toList,
                Event.createSymlink "/data/img/b.jpg".toList "out/a.jpg/0001.b.jpg".toList] :=
  bucket_links demoEnv demoTreeCfg (flagsOf demoEnv demoTreeCfg) demoScene demoScene 0
    [⟨0, "1".toList⟩, ⟨1, "0.25".toList⟩] ⟨[], [], 0⟩ "out".toList ⟨"img/a.jpg".toList⟩
    [⟨"img/a.jpg".toList⟩, ⟨"img/b.jpg".toList⟩] _ (by decide) rfl (by decide) (by decide)
    (by decide) (by decide)

/-! ## The tally of wrong matches -/

/-- C6: a run on a batch of non-empty match lists returns and leaves the batch as the
index returned it. In self-query mode, when it exits with success the count of wrong matches
is the number of query indices i whose best match has an id other than i, and the tally line
reports that count; a wrong match does not make the run fail: without an honoured output
directory the exit status is 0. In external-query mode nothing is counted and no tally is
printed. -/
theorem sanity_tally {σ : Type} (env : Env σ) (cfg : Config)
    (hfeat : env.populateDatabase cfg.keylist ≠ 0)
    (hne : ∀ ms ∈ batchOf env cfg, ms ≠ []) :
    ∃ out, main env cfg = some out ∧ out.allMatches = batchOf env cfg ∧
      (cfg.queryList = none → out.exitCode = EXIT_SUCCESS →
        out.wrong = mismatches (batchOf env cfg) ∧
        out.tally = some (if mismatches (batchOf env cfg) ≠ 0 then
            "there are ".toList ++ showNat (mismatches (batchOf env cfg)) ++
              " wrong matches".toList
          else "no wrong matches!".toList)) ∧
      (cfg.queryList = none → withOutDirFlag env cfg = false → out.exitCode = EXIT_SUCCESS) ∧
      (cfg.queryList.isSome = true → out.wrong = 0 ∧ out.tally = none) := by
  obtain ⟨out, hm, hb, _, hsucc, hoff, hquery⟩ := main_outcome env cfg hfeat hne
  refine ⟨out, hm, hb, ?_, ?_, ?_⟩
  · intro hq h
    obtain ⟨sfmdata, sfmdataQuery, hl, _, hw, ht⟩ := hsucc h
    have hwq : (flagsOf env cfg).withQuery = false := by simp [flagsOf, hq]
    have hcount : wrongCount (flagsOf env cfg) sfmdata sfmdataQuery 0 (batchOf env cfg) =
        mismatches (batchOf env cfg) :=
      wrongCount_sanity (flagsOf env cfg) sfmdata sfmdataQuery hwq (batchOf env cfg) 0 hl
    rw [hw, ht, hcount]
    simp only [tallyMessage, hwq]
    by_cases h0 : mismatches (batchOf env cfg) = 0 <;> simp [h0]
  · intro _ hd
    exact hoff hd
  · intro hq
    exact hquery hq

/-- Witness of C6: the sanity check on the demo corpus counts one wrong match (document 1,
whose best match is document 0) and exits with success. -/
theorem sanity_tally_witness :
    (∃ out, main demoEnv demoCfg = some out ∧ out.allMatches = batchOf demoEnv demoCfg ∧
      (demoCfg.queryList = none → out.exitCode = EXIT_SUCCESS →
        out.wrong = mismatches (batchOf demoEnv demoCfg) ∧
        out.tally = some (if mismatches (batchOf demoEnv demoCfg) ≠ 0 then
            "there are ".toList ++ showNat (mismatches (batchOf demoEnv demoCfg)) ++
              " wrong matches".toList
          else "no wrong matches!".toList)) ∧
      (demoCfg.queryList = none → withOutDirFlag demoEnv demoCfg = false →
        out.exitCode = EXIT_SUCCESS) ∧
      (demoCfg.queryList.isSome = true → out.wrong = 0 ∧ out.tally = none)) ∧
    (main demoEnv demoCfg).map (fun out => (out.exitCode, out.wrong, out.tally)) =
      some (0, 1, some "there are 1 wrong matches".toList) ∧
    (main demoEnv demoQueryCfg).map (fun out => (out.exitCode, out.wrong, out.tally)) =
      some (0, 0, none) :=
  ⟨sanity_tally demoEnv demoCfg (by decide) (by decide), by decide, by decide⟩

/-! ## The first failed lookup -/

theorem bodyOk_on {σ : Type} (fl : Flags) (sfmdata sfmdataQuery : SfM_Data) (i : Nat)
    (ms : Matches σ) (hd : fl.withOutDir = true) :
    bodyOk fl sfmdata sfmdataQuery i ms = bucketResolves sfmdata sfmdataQuery i ms := by
  simp [bodyOk, hd]

theorem loopOk_iff {σ : Type} (fl : Flags) (sfmdata sfmdataQuery : SfM_Data)
    (hd : fl.withOutDir = true) (batch : List (Matches σ)) : ∀ i,
    loopOk fl sfmdata sfmdataQuery i batch = true ↔
      ∀ k ms, batch[k]? = some ms → bucketResolves sfmdata sfmdataQuery (i + k) ms = true := by
  induction batch with
  | nil => intro i; simp [loopOk]
  | cons x rest ih =>
    intro i
    rw [loopOk, Bool.and_eq_true, bodyOk_on fl sfmdata sfmdataQuery i x hd, ih (i + 1)]
    constructor
    · rintro ⟨h0, hr⟩ k ms hk
      cases k with
      | zero =>
        simp only [List.getElem?_cons_zero, Option.some.injEq] at hk
        subst hk
        exact h0
      | succ k =>
        simp only [List.getElem?_cons_succ] at hk
        have := hr k ms hk
        rwa [show i + 1 + k = i + (k + 1) by omega] at this
    · intro h
      refine ⟨h 0 x (by simp), ?_⟩
      intro k ms hk
      have := h (k + 1) ms (by simpa using hk)
      rwa [show i + (k + 1) = i + 1 + k by omega] at this

theorem bucketResolves_false_iff {σ : Type} (sfmdata sfmdataQuery : SfM_Data) (i : Nat)
    (ms : Matches σ) :
    bucketResolves sfmdata sfmdataQuery i ms = false ↔
      (sfmdataQuery.find i = none ∨ ∃ m ∈ ms, sfmdata.find m.id = none) := by
  cases hq : sfmdataQuery.find i with
  | none => simp [bucketResolves, hq]
  | some v =>
    simp only [bucketResolves, hq, Option.isSome_some, Bool.true_and, allResolve,
      List.all_eq_false, false_or, reduceCtorEq]
    constructor
    · rintro ⟨m, hm, h⟩
      refine ⟨m, hm, ?_⟩
      cases hf : sfmdata.find m.id with
      | none => rfl
      | some w => simp [hf] at h
    · rintro ⟨m, hm, h⟩
      exact ⟨m, hm, by simp [h]⟩

theorem matchLinks_takeWhile {σ : Type} (env : Env σ) (sfmdata : SfM_Data) (dirname : Str)
    (ms : Matches σ) : ∀ j,
    matchLinks env sfmdata dirname j ms =
      matchLinks env sfmdata dirname j (ms.takeWhile (fun m => (sfmdata.find m.id).isSome)) := by
  induction ms with
  | nil => intro j; rfl
  | cons m rest ih =>
    intro j
    cases hf : sfmdata.find m.id with
    | none => simp [matchLinks, List.takeWhile, hf]
    | some v =>
      rw [List.takeWhile_cons]
      simp only [hf, Option.isSome_some, if_true]
      rw [matchLinks, matchLinks, hf]
      simp only
      rw [← ih (j + 1)]

theorem bucketEvents_takeWhile {σ : Type} (env : Env σ) (cfg : Config)
    (sfmdata sfmdataQuery : SfM_Data) (i : Nat) (ms : Matches σ) :
    bucketEvents env cfg sfmdata sfmdataQuery i ms =
      bucketEvents env cfg sfmdata sfmdataQuery i
        (ms.takeWhile (fun m => (sfmdata.find m.id).isSome)) := by
  unfold bucketEvents
  cases hq : sfmdataQuery.find i with
  | none => rfl
  | some v =>
    simp only
    rw [← matchLinks_takeWhile]

theorem treeEvents_first_failure {σ : Type} (env : Env σ) (cfg : Config) (fl : Flags)
    (sfmdata sfmdataQuery : SfM_Data) (hd : fl.withOutDir = true) (batch : List (Matches σ)) :
    ∀ (i k : Nat) (ms : Matches σ), batch[k]? = some ms →
      (∀ k' ms', k' < k → batch[k']? = some ms' →
        bucketResolves sfmdata sfmdataQuery (i + k') ms' = true) →
      bucketResolves sfmdata sfmdataQuery (i + k) ms = false →
      treeEvents env cfg fl sfmdata sfmdataQuery i batch =
        ((batch.take k).enumFrom i).flatMap
            (fun p => bucketEvents env cfg sfmdata sfmdataQuery p.1 p.2) ++
          bucketEvents env cfg sfmdata sfmdataQuery (i + k) ms := by
  induction batch with
  | nil => intro i k ms hk; simp at hk
  | cons x rest ih =>
    intro i k ms hk hbefore hfail
    cases k with
    | zero =>
      simp only [List.getElem?_cons_zero, Option.some.injEq] at hk
      subst hk
      rw [treeEvents, bodyOk_on fl sfmdata sfmdataQuery i x hd]
      simp only [Nat.add_zero] at hfail
      simp [hd, hfail]
    | succ k =>
      simp only [List.getElem?_cons_succ] at hk
      have h0 : bucketResolves sfmdata sfmdataQuery i x = true := by
        have := hbefore 0 x (by omega) (by simp)
        simpa using this
      have hrest : ∀ k' ms', k' < k → rest[k']? = some ms' →
          bucketResolves sfmdata sfmdataQuery (i + 1 + k') ms' = true := by
        intro k' ms' hlt hget
        have := hbefore (k' + 1) ms' (by omega) (by simpa using hget)
        rwa [show i + (k' + 1) = i + 1 + k' by omega] at this
      have hfail' : bucketResolves sfmdata sfmdataQuery (i + 1 + k) ms = false := by
        rwa [show i + (k + 1) = i + 1 + k by omega] at hfail
      rw [treeEvents, bodyOk_on fl sfmdata sfmdataQuery i x hd, h0,
        ih (i + 1) k ms hk hrest hfail']
      simp only [hd, if_true, List.take_succ_cons, List.enumFrom_cons, List.flatMap_cons,
        List.append_assoc]
      rw [show i + 1 + k = i + (k + 1) by omega]

theorem sceneLoad_on {σ : Type} (env : Env σ) (cfg : Config) (fl : Flags)
    (sfmdata sfmdataQuery : SfM_Data) (hd : fl.withOutDir = true)
    (hkey : env.sfmLoad cfg.keylist = some sfmdata)
    (hquery : (match cfg.queryList with
      | none => some sfmdata
      | some q => env.sfmLoad q) = some sfmdataQuery) :
    (sceneLoad env cfg fl).2 = some (sfmdata, sfmdataQuery) := by
  unfold sceneLoad
  simp only [hd, if_true, hkey]
  cases hq : cfg.queryList with
  | none =>
    rw [hq] at hquery
    simp only [Option.some.injEq] at hquery
    subst hquery
    rfl
  | some q =>
    rw [hq] at hquery
    simp only at hquery
    simp only [hquery]
    rfl

/-- C7, as stated, fails: in the scene description of this run the two images have the same
file name, so every query index and every matched id has a view, and yet the exit status is
not zero: the bucket of query 1 is the bucket of query 0, the link to the query image exists
there, the request for it throws and the run is aborted. -/
theorem shared_file_name_aborts :
    demoTwinEnv.sfmLoad demoTreeCfg.keylist = some demoTwinScene ∧
      (∀ p ∈ (batchOf demoTwinEnv demoTreeCfg).enum,
        demoTwinScene.find p.1 ≠ none ∧ ∀ m ∈ p.2, demoTwinScene.find m.id ≠ none) ∧
      (main demoTwinEnv demoTreeCfg).map Outcome.exitCode = some ABORTED ∧
      ABORTED ≠ EXIT_SUCCESS ∧
      (main demoTwinEnv demoTreeCfg).map
          (fun out => out.events.drop (loadEvents demoTwinEnv demoTreeCfg).length) =
        some [Event.createDirectories "out".toList,
          Event.createDirectories "out/x.jpg".toList,
          Event.createSymlink "/data/x.jpg".toList "out/x.jpg/x.jpg".toList,
          Event.createSymlink "/data/left/x.jpg".toList "out/x.jpg/0000.x.jpg".toList,
          Event.createSymlink "/data/right/x.jpg".toList "out/x.jpg/0001.x.jpg".toList,
          Event.createDirectories "out/x.jpg".toList,
          Event.createSymlink "/data/x.jpg".toList "out/x.jpg/x.jpg".toList] := by
  decide

/-- C7 (amended): in symlink-tree mode, once the scene description of the key list and, with
a query list, the one of the query list are loaded, a run on a batch of non-empty match lists
ends. It is aborted exactly when one of its file-system requests throws, and then its requests
are those up to the one that throws. When it is not aborted, its exit status is non-zero
exactly when some query index has no view in the query scene description or some matched id
has no view in the corpus scene description; and if query i is the first one with such a
lookup, the file-system requests of the run are the one for the output directory, those of
the queries before i, and those of query i for the matches that come before its first id
without a view (none at all when the query itself has no view): nothing is requested for what
comes after. -/
theorem consistency_error {σ : Type} (env : Env σ) (cfg : Config)
    (sfmdata sfmdataQuery : SfM_Data)
    (hflag : withOutDirFlag env cfg = true)
    (hfeat : env.populateDatabase cfg.keylist ≠ 0)
    (hne : ∀ ms ∈ batchOf env cfg, ms ≠ [])
    (hkey : env.sfmLoad cfg.keylist = some sfmdata)
    (hquery : (match cfg.queryList with
      | none => some sfmdata
      | some q => env.sfmLoad q) = some sfmdataQuery) :
    ∃ out, main env cfg = some out ∧
      (out.exitCode = ABORTED ↔
        quiet env (loadEvents env cfg) (fsRequests env cfg sfmdata sfmdataQuery) = false) ∧
      (out.exitCode = ABORTED →
        out.events = loadEvents env cfg ++
          issued env (loadEvents env cfg) (fsRequests env cfg sfmdata sfmdataQuery)) ∧
      (out.exitCode ≠ ABORTED →
        (out.exitCode ≠ EXIT_SUCCESS ↔
          ∃ i ms, (batchOf env cfg)[i]? = some ms ∧
            (sfmdataQuery.find i = none ∨ ∃ m ∈ ms, sfmdata.find m.id = none)) ∧
        (∀ i ms, (batchOf env cfg)[i]? = some ms →
          (∀ k ms', k < i → (batchOf env cfg)[k]? = some ms' →
            bucketResolves sfmdata sfmdataQuery k ms' = true) →
          bucketResolves sfmdata sfmdataQuery i ms = false →
          out.events = loadEvents env cfg ++ outDirRequest env cfg (flagsOf env cfg) ++
            (((batchOf env cfg).take i ++
                [ms.takeWhile (fun m => (sfmdata.find m.id).isSome)]).enum.flatMap
              (fun p => bucketEvents env cfg sfmdata sfmdataQuery p.1 p.2)))) := by
  have hd : (flagsOf env cfg).withOutDir = true := hflag
  have hscene := sceneLoad_on env cfg (flagsOf env cfg) sfmdata sfmdataQuery hd hkey hquery
  cases hq : quiet env (loadEvents env cfg) (fsRequests env cfg sfmdata sfmdataQuery) with
  | false =>
    obtain ⟨text, w, _, hmain⟩ := main_thrown env cfg sfmdata sfmdataQuery hfeat hne hscene hq
    refine ⟨_, hmain, ?_, ?_, ?_⟩
    · simp
    · intro _
      rfl
    · intro h
      exact absurd rfl h
  | true =>
    refine ⟨_, main_calm env cfg sfmdata sfmdataQuery hfeat hne hscene hq, ?_, ?_, ?_⟩
    · simp only [Bool.true_eq_false, iff_false]
      split <;> simp [EXIT_SUCCESS, EXIT_FAILURE, ABORTED]
    · intro h
      exfalso
      revert h
      simp only
      split <;> simp [EXIT_SUCCESS, EXIT_FAILURE, ABORTED]
    · intro _
      refine ⟨?_, ?_⟩
      · have hiff := loopOk_iff (flagsOf env cfg) sfmdata sfmdataQuery hd (batchOf env cfg) 0
        constructor
        · intro hexit
          have hl : ¬ loopOk (flagsOf env cfg) sfmdata sfmdataQuery 0 (batchOf env cfg) =
              true := by
            intro hl
            simp [hl] at hexit
          rw [hiff] at hl
          push_neg at hl
          obtain ⟨k, ms, hk, hres⟩ := hl
          refine ⟨k, ms, hk, ?_⟩
          rw [Nat.zero_add] at hres
          exact (bucketResolves_false_iff sfmdata sfmdataQuery k ms).mp (by simpa using hres)
        · rintro ⟨k, ms, hk, hfail⟩
          have hres := (bucketResolves_false_iff sfmdata sfmdataQuery k ms).mpr hfail
          have hl : ¬ loopOk (flagsOf env cfg) sfmdata sfmdataQuery 0 (batchOf env cfg) =
              true := by
            rw [hiff]
            intro h
            have := h k ms hk
            rw [Nat.zero_add, hres] at this
            exact absurd this (by decide)
          simp [hl, EXIT_SUCCESS, EXIT_FAILURE]
      · intro i ms hi hbefore hfail
        have hlt : i < (batchOf env cfg).length := by
          rcases List.getElem?_eq_some_iff.mp hi with ⟨h, _⟩
          exact h
        have hlen : ((batchOf env cfg).take i).length = i := by
          rw [List.length_take]
          omega
        have hsplit := treeEvents_first_failure env cfg (flagsOf env cfg) sfmdata sfmdataQuery
          hd (batchOf env cfg) 0 i ms hi
          (by intro k' ms' hk' hget; rw [Nat.zero_add]; exact hbefore k' ms' hk' hget)
          (by rw [Nat.zero_add]; exact hfail)
        simp only [fsRequests, hsplit]
        rw [Nat.zero_add, bucketEvents_takeWhile env cfg sfmdata sfmdataQuery i ms]
        simp only [List.enum, List.enumFrom_append, hlen, Nat.zero_add, List.flatMap_append,
          List.enumFrom_cons, List.enumFrom_nil, List.flatMap_cons, List.flatMap_nil,
          List.append_nil, List.append_assoc]

/-- Witness of C7 (amended): with the scene description that lacks the view of document 1,
the demo run with an output directory is not aborted and stops with EXIT_FAILURE at the second
match of query 0, after the output directory, the bucket of query 0, the link to the query
image and the link of rank 0. -/
theorem consistency_error_witness :
    (∃ out, main demoShortEnv demoTreeCfg = some out ∧
      (out.exitCode = ABORTED ↔
        quiet demoShortEnv (loadEvents demoShortEnv demoTreeCfg)
          (fsRequests demoShortEnv demoTreeCfg demoShortScene demoShortScene) = false) ∧
      (out.exitCode = ABORTED →
        out.events = loadEvents demoShortEnv demoTreeCfg ++
          issued demoShortEnv (loadEvents demoShortEnv demoTreeCfg)
            (fsRequests demoShortEnv demoTreeCfg demoShortScene demoShortScene)) ∧
      (out.exitCode ≠ ABORTED →
        (out.exitCode ≠ EXIT_SUCCESS ↔
          ∃ i ms, (batchOf demoShortEnv demoTreeCfg)[i]? = some ms ∧
            (demoShortScene.find i = none ∨ ∃ m ∈ ms, demoShortScene.find m.id = none)) ∧
        (∀ i ms, (batchOf demoShortEnv demoTreeCfg)[i]? = some ms →
          (∀ k ms', k < i → (batchOf demoShortEnv demoTreeCfg)[k]? = some ms' →
            bucketResolves demoShortScene demoShortScene k ms' = true) →
          bucketResolves demoShortScene demoShortScene i ms = false →
          out.events = loadEvents demoShortEnv demoTreeCfg ++
              outDirRequest demoShortEnv demoTreeCfg (flagsOf demoShortEnv demoTreeCfg) ++
            (((batchOf demoShortEnv demoTreeCfg).take i ++
                [ms.takeWhile (fun m => (demoShortScene.find m.id).isSome)]).enum.flatMap
              (fun p => bucketEvents demoShortEnv demoTreeCfg demoShortScene demoShortScene
                p.1 p.2))))) ∧
    (main demoShortEnv demoTreeCfg).map
        (fun out =>
          (out.exitCode, out.events.drop (loadEvents demoShortEnv demoTreeCfg).length)) =
      some (1, [Event.createDirectories "out".toList,
        Event.createDirectories "out/a.jpg".toList,
        Event.createSymlink "/data/a.jpg".toList "out/a.jpg/a.jpg".toList,
        Event.createSymlink "/data/img/a.jpg".toList "out/a.jpg/0000.a.jpg".toList]) :=
  ⟨consistency_error demoShortEnv demoTreeCfg demoShortScene demoShortScene (by decide)
    (by decide) (by decide) (by decide) (by decide), by decide⟩

/-! ## Honouring the output directory -/

theorem withOutDirFlag_iff {σ : Type} (env : Env σ) (cfg : Config) :
    withOutDirFlag env cfg = true ↔
      cfg.outDir.isSome = true ∧ env.extension cfg.keylist = ".json".toList ∧
        ∀ q, cfg.queryList = some q → env.extension q = ".json".toList := by
  unfold withOutDirFlag
  cases ho : cfg.outDir with
  | none => simp
  | some d =>
    cases hq : cfg.queryList with
    | none => simp
    | some q =>
      by_cases hk : env.extension cfg.keylist = ".json".toList
      · simp [hk]
      · simp [hk]

theorem matchLoop_outDir {σ : Type} (env : Env σ) (cfg : Config) (fl : Flags)
    (sfmdata : SfM_Data) (dirname : Str) (i : Nat) (ms : Matches σ) : ∀ (j : Nat) (st : State),
    matchLoop env { cfg with outDir := none } fl sfmdata dirname i j ms st =
      matchLoop env cfg fl sfmdata dirname i j ms st := by
  induction ms with
  | nil => intro j st; rfl
  | cons m rest ih =>
    intro j st
    rw [matchLoop, matchLoop]
    simp only [ih]

theorem queryBody_outDir {σ : Type} (env : Env σ) (cfg : Config) (fl : Flags)
    (sfmdata sfmdataQuery : SfM_Data) (hd : fl.withOutDir = false) (i : Nat) (ms : Matches σ)
    (st : State) :
    queryBody env { cfg with outDir := none } fl sfmdata sfmdataQuery i ms st =
      queryBody env cfg fl sfmdata sfmdataQuery i ms st := by
  unfold queryBody
  simp only [hd, matchLoop_outDir, Bool.false_eq_true, if_false]

theorem queryLoop_outDir {σ : Type} (env : Env σ) (cfg : Config) (fl : Flags)
    (sfmdata sfmdataQuery : SfM_Data) (hd : fl.withOutDir = false) (batch : List (Matches σ)) :
    ∀ (i : Nat) (st : State),
    queryLoop env { cfg with outDir := none } fl sfmdata sfmdataQuery i batch st =
      queryLoop env cfg fl sfmdata sfmdataQuery i batch st := by
  induction batch with
  | nil => intro i st; rfl
  | cons ms rest ih =>
    intro i st
    rw [queryLoop, queryLoop, queryBody_outDir env cfg fl sfmdata sfmdataQuery hd]
    simp only [ih]

theorem main_outDir {σ : Type} (env : Env σ) (cfg : Config)
    (hflag : withOutDirFlag env cfg = false) :
    main env { cfg with outDir := none } = main env cfg := by
  have hoff : withOutDirFlag env { cfg with outDir := none } = false := rfl
  have hfl : flagsOf env { cfg with outDir := none } = flagsOf env cfg := by
    simp only [flagsOf, hoff, hflag]
  have hd : (flagsOf env cfg).withOutDir = false := hflag
  have hb : buildPhase env { cfg with outDir := none } (flagsOf env cfg) =
      buildPhase env cfg (flagsOf env cfg) := rfl
  have hs : ∀ ev, scenePhase env { cfg with outDir := none } (flagsOf env cfg) ev =
      scenePhase env cfg (flagsOf env cfg) ev := by
    intro ev
    simp [scenePhase, hd]
  have hq : ∀ k, queryPhase env { cfg with outDir := none } k = queryPhase env cfg k :=
    fun _ => rfl
  unfold main
  simp only [hfl, hb, hs, hq, queryLoop_outDir env cfg (flagsOf env cfg) _ _ hd]

/-- C8: the output directory is honoured exactly when it is given, the key list has the
extension ".json" and, when a query list is given, the query list has it too. When it is not
honoured, the run is the run of the same command line without the output directory (same exit
status, same report, same events), and on a batch of non-empty match lists it returns without
loading a scene description or requesting a directory or a link. When it is honoured and the
corpus is not empty, the scene description of the key list is loaded. -/
theorem outdir_gating {σ : Type} (env : Env σ) (cfg : Config)
    (hne : ∀ ms ∈ batchOf env cfg, ms ≠ []) :
    (withOutDirFlag env cfg = true ↔
      cfg.outDir.isSome = true ∧ env.extension cfg.keylist = ".json".toList ∧
        ∀ q, cfg.queryList = some q → env.extension q = ".json".toList) ∧
    (withOutDirFlag env cfg = false →
      main env cfg = main env { cfg with outDir := none } ∧
      ∃ out, main env cfg = some out ∧ out.events.all (fun e => !isTreeEvent e) = true) ∧
    (withOutDirFlag env cfg = true → env.populateDatabase cfg.keylist ≠ 0 →
      ∃ out, main env cfg = some out ∧ Event.sfmLoad cfg.keylist ∈ out.events) := by
  refine ⟨withOutDirFlag_iff env cfg, ?_, ?_⟩
  · intro hflag
    have hd : (flagsOf env cfg).withOutDir = false := hflag
    refine ⟨(main_outDir env cfg hflag).symm, ?_⟩
    by_cases hfeat : env.populateDatabase cfg.keylist = 0
    · exact ⟨_, main_zero env cfg hfeat, buildPhase_events env cfg _⟩
    · obtain ⟨out, hm, _, ⟨es, hev, _, hes⟩, _⟩ := main_outcome env cfg hfeat hne
      refine ⟨out, hm, ?_⟩
      have hb := buildPhase_events env cfg (flagsOf env cfg)
      have hq := (queryPhase_event env cfg (resolveCount env cfg)).1
      rw [hev, hes hflag]
      simp only [loadEvents, sceneLoad_off env cfg _ hd, List.append_nil, List.all_append, hb,
        Bool.true_and, List.all_cons, hq, List.all_nil]
      rfl
  · intro hflag hfeat
    have hd : (flagsOf env cfg).withOutDir = true := hflag
    have hmem : Event.sfmLoad cfg.keylist ∈ loadEvents env cfg := by
      unfold loadEvents
      exact List.mem_append_right _ (sceneLoad_keylist env cfg _ hd)
    obtain ⟨out, hm, _, ⟨es, hev, _, _⟩, _⟩ := main_outcome env cfg hfeat hne
    refine ⟨out, hm, ?_⟩
    rw [hev]
    exact List.mem_append_left _ hmem

/-- Witness of C8: the demo run with an output directory and a bare list file as key list
is the run without the output directory. -/
theorem outdir_gating_witness :
    ((withOutDirFlag demoEnv demoListCfg = true ↔
      demoListCfg.outDir.isSome = true ∧ demoEnv.extension demoListCfg.keylist = ".json".toList ∧
        ∀ q, demoListCfg.queryList = some q → demoEnv.extension q = ".json".toList) ∧
    (withOutDirFlag demoEnv demoListCfg = false →
      main demoEnv demoListCfg = main demoEnv { demoListCfg with outDir := none } ∧
      ∃ out, main demoEnv demoListCfg = some out ∧
        out.events.all (fun e => !isTreeEvent e) = true) ∧
    (withOutDirFlag demoEnv demoListCfg = true →
      demoEnv.populateDatabase demoListCfg.keylist ≠ 0 →
      ∃ out, main demoEnv demoListCfg = some out ∧
        Event.sfmLoad demoListCfg.keylist ∈ out.events)) ∧
    withOutDirFlag demoEnv demoListCfg = false ∧ withOutDirFlag demoEnv demoTreeCfg = true :=
  ⟨outdir_gating demoEnv demoListCfg (by decide), by decide, by decide⟩

/-! ## Empty corpus, empty query set -/

/-- C9, as stated, fails: an external query whose query list holds no document, hence no
descriptor, exits with success, with an empty report. -/
theorem empty_query_set_exits_zero :
    (main demoEmptyQueryEnv demoQueryCfg).map
        (fun out => (out.exitCode, out.allMatches.length, out.report)) =
      some (EXIT_SUCCESS, 0, some []) ∧
    (main demoEmptyQueryEnv demoQueryCfg).map Outcome.exitCode ≠ some EXIT_FAILURE := by
  decide

/-- C9 (amended): the only check on the number of descriptors is the one on the corpus. When
no descriptor is read from the key list, the run returns EXIT_FAILURE after the tree, the
weights file if any and the key list have been read: no report is opened and no query is
issued. When the corpus check passes, an external query without an honoured output directory
exits with success whatever non-empty match lists the query list delivers. -/
theorem only_corpus_is_checked {σ : Type} (env : Env σ) (cfg : Config) :
    (env.populateDatabase cfg.keylist = 0 →
      ∃ out, main env cfg = some out ∧ out.exitCode = EXIT_FAILURE ∧ out.report = none ∧
        out.allMatches = [] ∧
        out.events = Event.loadTree cfg.treeName ::
          ((match cfg.weightsName with
            | some w => [Event.loadWeights w]
            | none => []) ++ [Event.populateDatabase cfg.keylist])) ∧
    (env.populateDatabase cfg.keylist ≠ 0 → cfg.queryList.isSome = true →
      withOutDirFlag env cfg = false → (∀ ms ∈ batchOf env cfg, ms ≠ []) →
      ∃ out, main env cfg = some out ∧ out.exitCode = EXIT_SUCCESS) := by
  refine ⟨?_, ?_⟩
  · intro hfeat
    refine ⟨_, main_zero env cfg hfeat, rfl, rfl, rfl, ?_⟩
    simp only [buildPhase, hfeat, if_true]
    cases cfg.weightsName <;> rfl
  · intro hfeat _ hflag hne
    obtain ⟨out, hm, _, _, _, hoff, _⟩ := main_outcome env cfg hfeat hne
    exact ⟨out, hm, hoff hflag⟩

/-- Witness of C9 (amended): the demo collaborators with a key list without descriptors
fail before any query, and the external query on the demo corpus exits with success. -/
theorem only_corpus_is_checked_witness :
    (∃ out, main demoNoFeatureEnv demoQueryCfg = some out ∧ out.exitCode = EXIT_FAILURE ∧
        out.report = none ∧ out.allMatches = [] ∧
        out.events = Event.loadTree demoQueryCfg.treeName ::
          ((match demoQueryCfg.weightsName with
            | some w => [Event.loadWeights w]
            | none => []) ++ [Event.populateDatabase demoQueryCfg.keylist])) ∧
    (∃ out, main demoEnv demoQueryCfg = some out ∧ out.exitCode = EXIT_SUCCESS) :=
  ⟨(only_corpus_is_checked demoNoFeatureEnv demoQueryCfg).1 (by decide),
    (only_corpus_is_checked demoEnv demoQueryCfg).2 (by decide) (by decide) (by decide)
      (by decide)⟩

/-! ## The count handed to the query -/

theorem main_events_query {σ : Type} (env : Env σ) (cfg : Config)
    (hfeat : env.populateDatabase cfg.keylist ≠ 0)
    (hne : ∀ ms ∈ batchOf env cfg, ms ≠ []) :
    ∃ out, main env cfg = some out ∧
      out.events.filter isQueryCall = [(queryPhase env cfg (resolveCount env cfg)).1] ∧
      out.allMatches = batchOf env cfg := by
  obtain ⟨out, hm, hb, ⟨es, hev, hes, _⟩, _⟩ := main_outcome env cfg hfeat hne
  refine ⟨out, hm, ?_, hb⟩
  rw [hev, List.filter_append, loadEvents_query, hes, List.append_nil]

/-- C10: the count handed to the sanity check or to the external query is the number of
documents of the database when the requested count is 0, and the requested count otherwise;
it is the only query issued, and its result is the batch of the run. Hence, for a database
that answers with min(K, number of documents) matches per query, a self-query run with a
requested count of 0 gives every document a match list as long as the corpus. -/
theorem top_k_resolution {σ : Type} (env : Env σ) (cfg : Config)
    (hfeat : env.populateDatabase cfg.keylist ≠ 0) :
    ((∀ ms ∈ batchOf env cfg, ms ≠ []) →
      ∃ out, main env cfg = some out ∧
        out.events.filter isQueryCall =
          [match cfg.queryList with
            | none =>
              Event.sanityCheck (if cfg.numImageQuery = 0 then env.dbSize else cfg.numImageQuery)
            | some q =>
              Event.queryDatabase q
                (if cfg.numImageQuery = 0 then env.dbSize else cfg.numImageQuery)] ∧
        out.allMatches =
          (match cfg.queryList with
            | none =>
              env.sanityCheck (if cfg.numImageQuery = 0 then env.dbSize else cfg.numImageQuery)
            | some q =>
              env.queryDatabase q
                (if cfg.numImageQuery = 0 then env.dbSize else cfg.numImageQuery))) ∧
    (cfg.queryList = none → cfg.numImageQuery = 0 → 0 < env.dbSize →
      (∀ k, ∀ ms ∈ env.sanityCheck k, ms.length = min k env.dbSize) →
      ∃ out, main env cfg = some out ∧ out.allMatches = env.sanityCheck env.dbSize ∧
        ∀ ms ∈ out.allMatches, ms.length = env.dbSize) := by
  refine ⟨?_, ?_⟩
  · intro hne
    obtain ⟨out, hmain, hev, hall⟩ := main_events_query env cfg hfeat hne
    refine ⟨out, hmain, ?_, ?_⟩
    · rw [hev, queryPhase_eq]
      rfl
    · rw [hall, batchOf, queryPhase_eq]
      rfl
  · intro hq hzero hdb hscorer
    have hbatch : batchOf env cfg = env.sanityCheck env.dbSize := by
      simp [batchOf, queryPhase_eq, hq, resolveCount, hzero]
    have hlen : ∀ ms ∈ batchOf env cfg, ms.length = env.dbSize := by
      intro ms hms
      rw [hbatch] at hms
      rw [hscorer env.dbSize ms hms, Nat.min_self]
    have hne : ∀ ms ∈ batchOf env cfg, ms ≠ [] := by
      intro ms hms h0
      have := hlen ms hms
      rw [h0] at this
      simp at this
      omega
    obtain ⟨out, hmain, _, hall⟩ := main_events_query env cfg hfeat hne
    refine ⟨out, hmain, ?_, ?_⟩
    · rw [hall, hbatch]
    · rw [hall]
      exact hlen

/-- Witness of C10: the sanity check on the two documents of the demo corpus with a requested
count of 0 asks for 2 matches and gives two match lists of length 2. -/
theorem top_k_resolution_witness :
    (∃ out, main demoEnv demoAllCfg = some out ∧
        out.events.filter isQueryCall = [Event.sanityCheck 2] ∧
        out.allMatches = demoEnv.sanityCheck 2) ∧
    (∃ out, main demoEnv demoAllCfg = some out ∧
        out.allMatches = demoEnv.sanityCheck demoEnv.dbSize ∧
        ∀ ms ∈ out.allMatches, ms.length = demoEnv.dbSize) :=
  ⟨(top_k_resolution demoEnv demoAllCfg (by decide)).1 (by decide),
    (top_k_resolution demoEnv demoAllCfg (by decide)).2 rfl rfl (by decide)
      (by
        intro k ms hms
        simp only [demoEnv, demoBatch, List.map_cons, List.map_nil, List.mem_cons,
          List.mem_singleton, List.not_mem_nil, or_false] at hms
        rcases hms with h | h <;> subst h <;> simp [List.length_take] <;> rfl)⟩

end VoctreeQuery
